import Mathlib

/-!
A shallow embedding of `PlottingSymbols/Geometry/GeoMultiLinePlotting.js`, the
class `SuperMap.Geometry.GeoMultiLinePlotting`.

The numeric methods are embedded twice, from the same method bodies.

In the first reading JavaScript numbers are elements of a linearly ordered
field `K` (exact arithmetic), the built-in functions `Math.sqrt` and `Math.cos`
and the constant `Math.PI` are arguments of the functions that call them, and a
computation whose JavaScript value is `NaN` or `undefined` yields `none`.
An optional argument is an `Option`; `!a` holds for an omitted argument and
for the number zero.

In the second reading, the namespace `Binary64`, the numbers are the
double-precision numbers of the language, `F64`: every operation rounds to the
nearest double, products underflow and overflow, and `NaN` and the infinities
are values.  The geometric properties are proved in the first reading; the
second shows where the code, which computes in doubles, departs from them.

A text is the list of its characters.  The conversion of a number to a string
and `eval` are arguments of the text functions; `numberToText` and
`evalCoordinateObject` are their instances for integers, written in decimal
the way JavaScript writes an integral number below `1e21`.  An exception is an
`Except.error`.
-/

namespace PlottingSymbols

/-! ## Data model -/

/-- A point of the mapping library, also used as a vector: its two coordinates. -/
structure Point (K : Type) where
  x : K
  y : K
deriving DecidableEq, Repr

/-- A line string of the mapping library: its points, in order. -/
abbrev LineString (K : Type) := List (Point K)

/-- The value of an optional numeric argument after `if (!a) a = dflt`. -/
def orDefault {K : Type} [LinearOrderedField K] (o : Option K) (dflt : K) : K :=
  match o with
  | none => dflt
  | some a => if a = 0 then dflt else a

/-- The value of `Math.sqrt(r)`: `NaN` for a negative radicand. -/
def sqrtOrNaN {K : Type} [LinearOrderedField K] (sqrt : K → K) (r : K) : Option K :=
  if r < 0 then none else some (sqrt r)

/-! ## Vector primitives, in exact arithmetic -/

/-- The method `calculateMidpoint`. -/
def calculateMidpoint {K : Type} [LinearOrderedField K] (pointA pointB : Point K) : Point K :=
  ⟨(pointA.x + pointB.x) / 2, (pointA.y + pointB.y) / 2⟩

/-- The method `calculateDistance`; the radicand is a sum of two squares. -/
def calculateDistance {K : Type} [LinearOrderedField K] (sqrt : K → K)
    (pointA pointB : Point K) : K :=
  sqrt ((pointA.x - pointB.x) ^ 2 + (pointA.y - pointB.y) ^ 2)

/-- The method `toVector`. -/
def toVector {K : Type} [LinearOrderedField K] (pointA pointB : Point K) : Point K :=
  ⟨pointA.x - pointB.x, pointA.y - pointB.y⟩

/-- The method `calculateVector`: the pair `[v_l, v_r]`.
The zero vector leaves `y_1` and `y_2` unassigned in the horizontal branch. -/
def calculateVector {K : Type} [LinearOrderedField K] (sqrt cos : K → K) (pi : K)
    (v : Point K) (a d : Option K) : Option (Point K × Point K) :=
  let a := orDefault a (pi / 2)
  let d := orDefault d 1
  let d_v := sqrt (v.x * v.x + v.y * v.y)
  if v.y = 0 then
    let x_1 := d_v * d * cos a / v.x
    let x_2 := x_1
    if 0 < v.x then
      (sqrtOrNaN sqrt (d * d - x_1 * x_1)).map fun y_1 =>
        let y_2 := -y_1
        (⟨x_1, y_1⟩, ⟨x_2, y_2⟩)
    else if v.x < 0 then
      (sqrtOrNaN sqrt (d * d - x_1 * x_1)).map fun y_2 =>
        let y_1 := -y_2
        (⟨x_1, y_1⟩, ⟨x_2, y_2⟩)
    else none
  else
    let n := -v.x / v.y
    let m := d * d_v * cos a / v.y
    let a := 1 + n * n
    let b := 2 * n * m
    let c := m * m - d * d
    (sqrtOrNaN sqrt (b * b - 4 * a * c)).map fun s =>
      let x_1 := (-b - s) / (2 * a)
      let x_2 := (-b + s) / (2 * a)
      let y_1 := n * x_1 + m
      let y_2 := n * x_2 + m
      if 0 ≤ v.y then (⟨x_1, y_1⟩, ⟨x_2, y_2⟩)
      else (⟨x_2, y_2⟩, ⟨x_1, y_1⟩)

/-- The method `calculateArrowLines`: the two line strings pushed to `arrowLines`. -/
def calculateArrowLines {K : Type} [LinearOrderedField K] (sqrt cos : K → K) (pi : K)
    (startP endP : Point K) (ratio angle : Option K) : Option (List (LineString K)) :=
  let ratio := orDefault ratio 10
  let angle := orDefault angle (pi / 6)
  let dictance := calculateDistance sqrt startP endP
  let vector := toVector startP endP
  (calculateVector sqrt cos pi vector (some angle) (some (dictance / ratio))).map
    fun vectorArrows =>
      let arrowLineP_l : Point K := ⟨vectorArrows.1.x + endP.x, vectorArrows.1.y + endP.y⟩
      let arrowLineP_r : Point K := ⟨vectorArrows.2.x + endP.x, vectorArrows.2.y + endP.y⟩
      [[endP, arrowLineP_l], [endP, arrowLineP_r]]

/-- The method `calculateIntersection`. -/
def calculateIntersection {K : Type} [LinearOrderedField K]
    (v_1 v_2 point1 point2 : Point K) : Point K :=
  if v_1.y * v_2.x - v_1.x * v_2.y = 0 then
    if 0 < v_1.x * v_2.x ∨ 0 < v_1.y * v_2.y then
      ⟨(point1.x + point2.x) / 2, (point1.y + point2.y) / 2⟩
    else
      ⟨point2.x, point2.y⟩
  else
    let x := (v_1.x * v_2.x * (point2.y - point1.y) + point1.x * v_1.y * v_2.x
              - point2.x * v_2.y * v_1.x) / (v_1.y * v_2.x - v_1.x * v_2.y)
    if v_1.x ≠ 0 then
      ⟨x, (x - point1.x) * v_1.y / v_1.x + point1.y⟩
    else
      ⟨x, (x - point2.x) * v_2.y / v_2.x + point2.y⟩

/-- The method `calculateAngularBisector`; a zero vector divides by zero. -/
def calculateAngularBisector {K : Type} [LinearOrderedField K] (sqrt : K → K)
    (v1 v2 : Point K) : Option (Point K) :=
  let d1 := sqrt (v1.x * v1.x + v1.y * v1.y)
  let d2 := sqrt (v2.x * v2.x + v2.y * v2.y)
  if d1 = 0 ∨ d2 = 0 then none
  else some ⟨v1.x / d1 + v2.x / d2, v1.y / d1 + v2.y / d2⟩

/-- The method `calculateIntersectionFromTwoCorner`: the pair `[pointI_l, pointI_r]`.
The argument `a_E` receives its default and is not read afterwards. -/
def calculateIntersectionFromTwoCorner {K : Type} [LinearOrderedField K]
    (sqrt cos : K → K) (pi : K) (pointS pointE : Point K) (a_S a_E : Option K) :
    Option (Point K × Point K) :=
  let a_S := orDefault a_S (pi / 4)
  let _a_E := orDefault a_E (pi / 4)
  let v_SE : Point K := ⟨pointE.x - pointS.x, pointE.y - pointS.y⟩
  (calculateVector sqrt cos pi v_SE (some a_S) (some 1)).bind fun v_SI_lr =>
    let v_SI_l := v_SI_lr.1
    let v_SI_r := v_SI_lr.2
    (calculateVector sqrt cos pi v_SE (some (pi - a_S)) (some 1)).map fun v_EI_lr =>
      let v_EI_l := v_EI_lr.1
      let v_EI_r := v_EI_lr.2
      let pointI_l := calculateIntersection v_SI_l v_EI_l pointS pointE
      let pointI_r := calculateIntersection v_SI_r v_EI_r pointS pointE
      (pointI_l, pointI_r)

/-! ## The plotting symbol -/

/-- The exceptions of the JavaScript run time met in this file. -/
inductive JsError where
  /-- A property is read from `null` or `undefined`. -/
  | typeError
  /-- The built-in `eval` is given a text that is not an expression. -/
  | syntaxError
  /-- The built-in `eval` is given a text outside the part of it modelled here. -/
  | notModelled
deriving DecidableEq, Repr

/-- An instance of the class: the field `_controlPoints`, absent when it holds
`undefined` or `null`, and the parts `components` of the multi line string. -/
structure GeoMultiLinePlotting (K : Type) where
  _controlPoints : Option (List (Point K))
  components : List (LineString K)
deriving DecidableEq, Repr

/-- Modelled from the spec: `clone` of a point is in the mapping library; the
point is duplicated, coordinate by coordinate. -/
def Point.clone {K : Type} (p : Point K) : Point K := ⟨p.x, p.y⟩

/-- Modelled from the spec: `clone` of a part is in the mapping library; the
geometry of the part is duplicated, point by point. -/
def LineString.clone {K : Type} (l : LineString K) : LineString K := l.map Point.clone

/-- The method `calculateParts` of the class itself: its body is empty.
A subclass supplies its own, which may raise. -/
def calculateParts {K : Type} (self : GeoMultiLinePlotting K) :
    Except JsError (GeoMultiLinePlotting K) :=
  pure self

/-- Modelled from the spec: the constructor of the parent class, which the
constructor calls first, is in the mapping library; a new instance has no parts. -/
def parentComponents {K : Type} : List (LineString K) := []

/-- The constructor, the method `initialize` of the source (a reserved word
here), with the `calculateParts` of the class constructed. -/
def newGeoMultiLinePlotting {K : Type}
    (calcParts : GeoMultiLinePlotting K → Except JsError (GeoMultiLinePlotting K))
    (points : Option (List (Point K))) : Except JsError (GeoMultiLinePlotting K) :=
  let self : GeoMultiLinePlotting K :=
    { _controlPoints := points, components := parentComponents }
  match points with
  | none => pure self
  | some pts => if 0 < pts.length then calcParts self else pure self

/-- Modelled from the spec: `getArea` of a part is in the mapping library; the
cross products of consecutive points, summed. -/
def crossSum {K : Type} [LinearOrderedField K] : List (Point K) → K
  | a :: b :: rest => (a.x * b.y - b.x * a.y) + crossSum (b :: rest)
  | _ => 0

/-- Modelled from the spec: `getArea` of a part is in the mapping library; the
shoelace area of the part taken as a ring closed from its last point to its first. -/
def shoelaceArea {K : Type} [LinearOrderedField K] (part : LineString K) : K :=
  crossSum (part ++ part.take 1) / 2

/-- The method `getArea`, with the `getArea` of a part as argument. -/
def getArea {K : Type} [LinearOrderedField K] (partArea : LineString K → K)
    (self : GeoMultiLinePlotting K) : K :=
  let area : K := 0
  match self.components with
  | [] => area
  | c0 :: rest => rest.foldl (fun area ci => area - |partArea ci|) (area + |partArea c0|)

/-- The method `getControlPoints`. -/
def getControlPoints {K : Type} (self : GeoMultiLinePlotting K) : Option (List (Point K)) :=
  self._controlPoints

/-- The method `setControlPoint`, with the `calculateParts` of the instance. -/
def setControlPoint {K : Type}
    (calcParts : GeoMultiLinePlotting K → Except JsError (GeoMultiLinePlotting K))
    (self : GeoMultiLinePlotting K) (points : Option (List (Point K))) :
    Except JsError (GeoMultiLinePlotting K) :=
  match points with
  | none => pure self
  | some pts =>
    if pts.length ≠ 0 ∧ 0 < pts.length then
      calcParts { self with _controlPoints := some pts }
    else pure self

/-- The method `clone`.  The new instance is of the class itself, constructed
without points; reading `length` of absent control points raises. -/
def clone {K : Type} (self : GeoMultiLinePlotting K) :
    Except JsError (GeoMultiLinePlotting K) := do
  let geoState : GeoMultiLinePlotting K ← newGeoMultiLinePlotting calculateParts none
  match self._controlPoints with
  | none => throw JsError.typeError
  | some cps =>
    let controlPoints := cps.map Point.clone
    let components := self.components.map LineString.clone
    pure { geoState with _controlPoints := some controlPoints, components := components }

/-! ## Control points as text -/

/-- A JavaScript string. -/
abbrev Text := List Char

/-- The character of a decimal digit. -/
def digitChar (d : Nat) : Char := Char.ofNat (48 + d)

/-- The decimal digits of a natural number, most significant first. -/
def natToText : Nat → Nat → Text
  | 0, _ => []
  | fuel + 1, n =>
    if n < 10 then [digitChar n] else natToText fuel (n / 10) ++ [digitChar (n % 10)]

/-- The integers that are numbers of JavaScript with their neighbours, the
range of `Number.isSafeInteger`. -/
def isSafeInteger (z : Int) : Bool :=
  decide (-(2 : Int) ^ 53 < z) && decide (z < (2 : Int) ^ 53)

/-- The conversion to a string of a number that is a safe integer: its decimal
digits, after a minus sign when it is negative. -/
def numberToText (z : Int) : Text :=
  match z with
  | Int.ofNat n => natToText (n + 1) n
  | Int.negSucc n => '-' :: natToText (n + 2) (n + 1)

/-- The method `join` of an array of strings. -/
def join (sep : Text) : List Text → Text
  | [] => []
  | [a] => a
  | a :: b :: rest => a ++ sep ++ join sep (b :: rest)

/-- The method `controlPointToJSON`.  The argument `numberToString` stands for
the conversion of a number to a string that the concatenation applies. -/
def controlPointToJSON {K : Type} (numberToString : K → Text) (cp : Point K) : Text :=
  String.toList "\x7b\"x\":  " ++ numberToString cp.x ++ String.toList ", \"y\": "
    ++ numberToString cp.y ++ String.toList "\x7d"

/-- The method `toJSON`: `none` is the value `null`. -/
def toJSON {K : Type} (numberToString : K → Text) (self : GeoMultiLinePlotting K) :
    Option Text :=
  match self._controlPoints with
  | none => none
  | some cps =>
    let arr := cps.map (controlPointToJSON numberToString)
    some (String.toList "\x7b\"controlPoints\":[" ++ join (String.toList ",") arr
      ++ String.toList "]\x7d")

/-- The characters the dot of a regular expression does not match. -/
def isLineTerminator (c : Char) : Bool :=
  c = Char.ofNat 10 || c = Char.ofNat 13 || c = Char.ofNat 0x2028 || c = Char.ofNat 0x2029

/-- The rest of the pattern after the opening brace, a lazy run of the dot
closed by a brace: the shortest match at the front of the text and the text
that follows it; `none` when a line terminator or the end comes first. -/
def lazyDotStarBrace : Text → Option (Text × Text)
  | [] => none
  | c :: cs =>
    if c = Char.ofNat 125 then some ([c], cs)
    else if isLineTerminator c then none
    else
      match lazyDotStarBrace cs with
      | some (m, rest) => some (c :: m, rest)
      | none => none

/-- The successive matches of the pattern of `getControlPointsFromJSON`, from
left to right: the pattern is tried at each position, and the search resumes
after a match.  Every step removes a character, so a fuel of the length of the
text is never used up. -/
def matchAllFrom : Nat → Text → List Text
  | 0, _ => []
  | _ + 1, [] => []
  | fuel + 1, c :: cs =>
    if c = Char.ofNat 123 then
      match lazyDotStarBrace cs with
      | some (m, rest) => (c :: m) :: matchAllFrom fuel rest
      | none => matchAllFrom fuel cs
    else matchAllFrom fuel cs

/-- The call `str.match(r)` with the global pattern: `none` is the value `null`
returned when nothing matches. -/
def regexMatch (str : Text) : Option (List Text) :=
  match matchAllFrom str.length str with
  | [] => none
  | m :: ms => some (m :: ms)

/-- The loop of `getControlPointsFromJSON` over the matches: each is evaluated
and its point pushed to `cps`. -/
def evalLoop {K : Type} (evalPoint : Text → Except JsError (Point K)) :
    List Text → List (Point K) → Except JsError (List (Point K))
  | [], cps => pure cps
  | f :: fs, cps => do
    let point ← evalPoint f
    evalLoop evalPoint fs (cps ++ [point])

/-- The function `getControlPointsFromJSON`.  The argument `evalPoint` stands
for the built-in `eval` applied to a match in parentheses, followed by the
construction of the point from the `x` and `y` of the object. -/
def getControlPointsFromJSON {K : Type} (evalPoint : Text → Except JsError (Point K))
    (str : Text) : Except JsError (List (Point K)) :=
  match regexMatch str with
  | none => throw JsError.typeError
  | some arr => evalLoop evalPoint arr []

/-! ### Evaluation of a coordinate object -/

/-- The text without its leading blanks. -/
def skipBlanks : Text → Text
  | [] => []
  | c :: cs => if c = ' ' then skipBlanks cs else c :: cs

/-- The text after the given prefix, when it starts with it. -/
def expect : Text → Text → Option Text
  | [], s => some s
  | _ :: _, [] => none
  | p :: ps, c :: cs => if p = c then expect ps cs else none

/-- The value of a run of decimal digits. -/
def digitsToNat (ds : Text) : Nat :=
  ds.foldl (fun n c => 10 * n + (c.toNat - 48)) 0

/-- A decimal literal at the front of the text, without superfluous leading
zeros (with them the literal is octal or an error) and below `2 ^ 53` (above,
the number read is the nearest one that exists), and the text after it. -/
def readNat (s : Text) : Option (Nat × Text) :=
  let ds := s.takeWhile Char.isDigit
  let rest := s.dropWhile Char.isDigit
  if digitsToNat ds < 2 ^ 53 ∧ natToText (digitsToNat ds + 1) (digitsToNat ds) = ds then
    some (digitsToNat ds, rest)
  else none

/-- A decimal literal, or a minus sign and a non-zero decimal literal. -/
def readInt (s : Text) : Option (Int × Text) :=
  match s with
  | [] => none
  | c :: cs =>
    if c = '-' then
      match readNat cs with
      | some (n, rest) => if n = 0 then none else some (-(n : Int), rest)
      | none => none
    else
      match readNat (c :: cs) with
      | some (n, rest) => some ((n : Int), rest)
      | none => none

/-- The object literal with the keys `"x"` and `"y"`, in this order, and
integral values, blanks allowed between the tokens: its two values. -/
def parseCoordinateObject (frag : Text) : Option (Point Int) := do
  let s ← expect [Char.ofNat 123] frag
  let s ← expect (String.toList "\"x\"") (skipBlanks s)
  let s ← expect [':'] (skipBlanks s)
  let (x, s) ← readInt (skipBlanks s)
  let s ← expect [','] (skipBlanks s)
  let s ← expect (String.toList "\"y\"") (skipBlanks s)
  let s ← expect [':'] (skipBlanks s)
  let (y, s) ← readInt (skipBlanks s)
  let s ← expect [Char.ofNat 125] (skipBlanks s)
  if s = [] then some ⟨x, y⟩ else none

/-- The characters of the texts whose syntax is checked: letters, digits, the
blank, the double quote, colon, comma, minus, full stop, and the brackets.  A
text of these characters has no comment, no escape and no other literal. -/
def isPlainChar (c : Char) : Bool :=
  c.isAlphanum || c = ' ' || c = '"' || c = ':' || c = ',' || c = '-' || c = '.'
    || c = '(' || c = ')' || c = '[' || c = ']' || c = Char.ofNat 123 || c = Char.ofNat 125

/-- An opening bracket. -/
def isOpening (c : Char) : Bool :=
  c = '(' || c = '[' || c = Char.ofNat 123

/-- A closing bracket. -/
def isClosing (c : Char) : Bool :=
  c = ')' || c = ']' || c = Char.ofNat 125

/-- The closing bracket of an opening bracket. -/
def closes (o c : Char) : Bool :=
  (o = '(' && c = ')') || (o = '[' && c = ']') || (o = Char.ofNat 123 && c = Char.ofNat 125)

/-- The brackets outside the string literals of a text of plain characters are
properly nested and every string literal is closed; the first argument tells
whether the text starts inside a string literal, the second holds the brackets
that are open. -/
def bracketsBalanced : Bool → List Char → Text → Bool
  | inString, stack, [] => !inString && stack.isEmpty
  | true, stack, c :: cs =>
    if c = '"' then bracketsBalanced false stack cs else bracketsBalanced true stack cs
  | false, stack, c :: cs =>
    if c = '"' then bracketsBalanced true stack cs
    else if isOpening c then bracketsBalanced false (c :: stack) cs
    else if isClosing c then
      match stack with
      | [] => false
      | o :: st => if closes o c then bracketsBalanced false st cs else false
    else bracketsBalanced false stack cs

/-- The built-in `eval` applied to a match in parentheses and the point built
from the result.  An object literal of `parseCoordinateObject` gives its point.
A text of plain characters that, put in parentheses, has a bracket without its
partner or an open string literal is no expression: a `SyntaxError`.  The rest
of `eval` is not modelled. -/
def evalCoordinateObject (frag : Text) : Except JsError (Point Int) :=
  match parseCoordinateObject frag with
  | some p => pure p
  | none =>
    if frag.all isPlainChar && !bracketsBalanced false [] ('(' :: (frag ++ [')'])) then
      throw JsError.syntaxError
    else throw JsError.notModelled

/-- A character that the lazy run of the dot passes over: neither the closing
brace nor a line terminator. -/
def passedByDot (c : Char) : Prop :=
  c ≠ Char.ofNat 125 ∧ isLineTerminator c = false

/-! ## Expressions named in the properties -/

/-- The radicand `d * d - x_1 * x_1` of the horizontal branch of
`calculateVector`, with the defaults of `a` and `d` applied as there. -/
def horizontalRadicand {K : Type} [LinearOrderedField K] (sqrt cos : K → K) (pi : K)
    (v : Point K) (a d : Option K) : K :=
  let a := orDefault a (pi / 2)
  let d := orDefault d 1
  let d_v := sqrt (v.x * v.x + v.y * v.y)
  let x_1 := d_v * d * cos a / v.x
  d * d - x_1 * x_1

/-- The discriminant `b * b - 4 * a * c` of the general branch of
`calculateVector`, with the defaults of `a` and `d` applied as there. -/
def quadraticDiscriminant {K : Type} [LinearOrderedField K] (sqrt cos : K → K) (pi : K)
    (v : Point K) (a d : Option K) : K :=
  let a := orDefault a (pi / 2)
  let d := orDefault d 1
  let d_v := sqrt (v.x * v.x + v.y * v.y)
  let n := -v.x / v.y
  let m := d * d_v * cos a / v.y
  let a := 1 + n * n
  let b := 2 * n * m
  let c := m * m - d * d
  b * b - 4 * a * c

/-- The closed form `calculateVector` is compared with: the vector `v` scaled to
the length `d` and turned by `a` counter-clockwise (first) and clockwise
(second).  It is written from the statement of the property, not from the
source. -/
def rotatedToLength {K : Type} [LinearOrderedField K] (sqrt cos sin : K → K)
    (v : Point K) (a d : K) : Point K × Point K :=
  let norm := sqrt (v.x * v.x + v.y * v.y)
  (⟨d / norm * (v.x * cos a - v.y * sin a), d / norm * (v.x * sin a + v.y * cos a)⟩,
   ⟨d / norm * (v.x * cos a + v.y * sin a), d / norm * (-v.x * sin a + v.y * cos a)⟩)

/-- The angle at `p` between the side to `q` and the side to `i` is `a`: the dot
product of the two sides is the product of their lengths and of `cos a`. -/
def angleAt {K : Type} [LinearOrderedField K] (sqrt cos : K → K) (p q i : Point K) (a : K) :
    Prop :=
  (q.x - p.x) * (i.x - p.x) + (q.y - p.y) * (i.y - p.y)
    = calculateDistance sqrt p q * calculateDistance sqrt p i * cos a

/-! ## Double-precision numbers

The numbers of the language are IEEE 754 binary64 values.  A finite value is a
sign, a mantissa below `2 ^ 53` and an exponent from `-1074` to `971`; its value
is `mant * 2 ^ exp`.  Every operation below computes the exact result and rounds
it once, to nearest, ties to even. -/

/-- A double-precision number: `NaN`, an infinity, or a finite value
`(-1) ^ neg * mant * 2 ^ exp`.  The operations below keep a finite value in
canonical form: the mantissa has 53 bits, or the exponent is `-1074`. -/
inductive F64 where
  | nan : F64
  | inf (neg : Bool) : F64
  | fin (neg : Bool) (mant : Nat) (exp : Int) : F64
deriving DecidableEq, Repr

namespace F64

/-- The position of the highest set bit of `n`, found by halving the range of
the shift; `0` for `n = 0`. -/
def log2Floor (n : Nat) : Nat :=
  if n >>> 33554432 ≠ 0 then Nat.log2 n
  else
    [16777216, 8388608, 4194304, 2097152, 1048576, 524288, 262144, 131072, 65536, 32768,
      16384, 8192, 4096, 2048, 1024, 512, 256, 128, 64, 32, 16, 8, 4, 2, 1].foldl
      (fun acc s => if n >>> (acc + s) = 0 then acc else acc + s) 0

/-- A rounded value, or the infinity when the exponent is out of range. -/
def finOrInf (neg : Bool) (mant : Nat) (exp : Int) : F64 :=
  if 971 < exp then inf neg else fin neg mant exp

/-- The double nearest to `(-1) ^ neg * (n + f) * 2 ^ e`, ties to even, where
`0 ≤ f < 1` and `sticky` tells whether `f` is not zero. -/
def round (neg : Bool) (n : Nat) (e : Int) (sticky : Bool) : F64 :=
  if n = 0 then fin neg 0 (-1074)
  else
    let E := max (e + (log2Floor n + 1) - 53) (-1074)
    if E ≤ e then finOrInf neg (n <<< (e - E).toNat) E
    else
      let k := (E - e).toNat
      let q := n >>> k
      let r := n - (q <<< k)
      let half := 1 <<< (k - 1)
      let up := decide (half < r) || (decide (r = half) && (sticky || decide (q % 2 = 1)))
      let m := if up then q + 1 else q
      if m = 2 ^ 53 then finOrInf neg (2 ^ 52) (E + 1) else finOrInf neg m E

/-- The integer `(-1) ^ neg * mant * 2 ^ (exp - e)`, for `e ≤ exp`. -/
def scaled (neg : Bool) (mant : Nat) (exp e : Int) : Int :=
  if neg then -((mant <<< (exp - e).toNat : Nat) : Int)
  else ((mant <<< (exp - e).toNat : Nat) : Int)

/-- The operator `+`. -/
def add : F64 → F64 → F64
  | nan, _ => nan
  | _, nan => nan
  | inf n1, inf n2 => if n1 = n2 then inf n1 else nan
  | inf n1, fin _ _ _ => inf n1
  | fin _ _ _, inf n2 => inf n2
  | fin s1 m1 e1, fin s2 m2 e2 =>
    let e := min e1 e2
    let s := scaled s1 m1 e1 e + scaled s2 m2 e2 e
    if s = 0 then fin (s1 && s2) 0 (-1074) else round (decide (s < 0)) s.natAbs e false

/-- The unary operator `-`. -/
def neg : F64 → F64
  | nan => nan
  | inf n => inf (!n)
  | fin s m e => fin (!s) m e

/-- The binary operator `-`. -/
def sub (a b : F64) : F64 := add a (neg b)

/-- The operator `*`. -/
def mul : F64 → F64 → F64
  | nan, _ => nan
  | _, nan => nan
  | inf n1, inf n2 => inf (xor n1 n2)
  | inf n1, fin s2 m2 _ => if m2 = 0 then nan else inf (xor n1 s2)
  | fin s1 m1 _, inf n2 => if m1 = 0 then nan else inf (xor s1 n2)
  | fin s1 m1 e1, fin s2 m2 e2 => round (xor s1 s2) (m1 * m2) (e1 + e2) false

/-- The double nearest to `(-1) ^ neg * (num / den) * 2 ^ e`, for `den > 0`: the
quotient is taken with at least 56 bits and the remainder is the sticky bit. -/
def roundRatio (neg : Bool) (num den : Nat) (e : Int) : F64 :=
  if num = 0 then fin neg 0 (-1074)
  else
    let k := 56 + (log2Floor den + 1) - (log2Floor num + 1)
    round neg ((num <<< k) / den) (e - k) (decide ((num <<< k) % den ≠ 0))

/-- The operator `/`. -/
def div : F64 → F64 → F64
  | nan, _ => nan
  | _, nan => nan
  | inf _, inf _ => nan
  | inf n1, fin s2 _ _ => inf (xor n1 s2)
  | fin s1 _ _, inf n2 => fin (xor s1 n2) 0 (-1074)
  | fin s1 m1 e1, fin s2 m2 e2 =>
    if m2 = 0 then (if m1 = 0 then nan else inf (xor s1 s2))
    else roundRatio (xor s1 s2) m1 m2 (e1 - e2)

/-- The integer square root, bit by bit from the highest: the largest `r` below
`2 ^ bit` above the given `r` with `r * r ≤ n`. -/
def isqrtBits : Nat → Nat → Nat → Nat
  | 0, _, r => r
  | bit + 1, n, r =>
    if (r + 2 ^ bit) * (r + 2 ^ bit) ≤ n then isqrtBits bit n (r + 2 ^ bit)
    else isqrtBits bit n r

/-- The integer square root of `n`. -/
def isqrt (n : Nat) : Nat := isqrtBits (log2Floor n / 2 + 1) n 0

/-- The function `Math.sqrt`: `NaN` for a negative radicand, correctly rounded
otherwise. -/
def sqrt : F64 → F64
  | nan => nan
  | inf n => if n then nan else inf false
  | fin s m e =>
    if m = 0 then fin s 0 (-1074)
    else if s then nan
    else
      let sh : Nat := if (e - 110) % 2 = 0 then 110 else 111
      let n := m <<< sh
      let r := isqrt n
      round false r ((e - sh) / 2) (decide (r * r ≠ n))

/-- The operator `<`: false when an operand is `NaN`. -/
def lt : F64 → F64 → Bool
  | nan, _ => false
  | _, nan => false
  | inf n1, inf n2 => n1 && !n2
  | inf n1, fin _ _ _ => n1
  | fin _ _ _, inf n2 => !n2
  | fin s1 m1 e1, fin s2 m2 e2 =>
    decide (scaled s1 m1 e1 (min e1 e2) < scaled s2 m2 e2 (min e1 e2))

/-- The operator `==` on numbers: false when an operand is `NaN`, true for the
two zeros. -/
def eq : F64 → F64 → Bool
  | nan, _ => false
  | _, nan => false
  | inf n1, inf n2 => n1 == n2
  | inf _, fin _ _ _ => false
  | fin _ _ _, inf _ => false
  | fin s1 m1 e1, fin s2 m2 e2 =>
    decide (scaled s1 m1 e1 (min e1 e2) = scaled s2 m2 e2 (min e1 e2))

/-- Whether two doubles are the same value: the same kind, sign, mantissa and
exponent.  Unlike `==`, it holds for `NaN` and itself and tells the two zeros
apart. -/
def same : F64 → F64 → Bool
  | nan, nan => true
  | inf n1, inf n2 => n1 == n2
  | fin s1 m1 e1, fin s2 m2 e2 => (s1 == s2) && Nat.beq m1 m2 && decide (e1 = e2)
  | _, _ => false

/-- The operator `<=`. -/
def le (a b : F64) : Bool := lt a b || eq a b

/-- The value of a decimal literal `mantissa * 10 ^ ±decimalExponent`: the
nearest double. -/
def ofScientific (mantissa : Nat) (exponentSign : Bool) (decimalExponent : Nat) : F64 :=
  if exponentSign then roundRatio false mantissa (10 ^ decimalExponent) 0
  else round false (mantissa * 10 ^ decimalExponent) 0 false

instance : OfScientific F64 := ⟨ofScientific⟩

instance (n : Nat) : OfNat F64 n := ⟨round false n 0 false⟩

instance : Neg F64 := ⟨neg⟩

instance : Add F64 := ⟨add⟩

instance : Sub F64 := ⟨sub⟩

instance : Mul F64 := ⟨mul⟩

instance : Div F64 := ⟨div⟩

/-- The partial sum of the cosine series in Horner form, as a fraction `p / q`:
from the innermost term outwards, `c ↦ 1 - (num / den) / ((2k+1)(2k+2)) * c`. -/
def cosHorner : Nat → Nat → Nat → Int → Nat → Int × Nat
  | 0, _, _, p, q => (p, q)
  | k + 1, num, den, p, q =>
    cosHorner k num den
      ((den * ((2 * k + 1) * (2 * k + 2)) * q : Nat) - (num : Int) * p)
      (den * ((2 * k + 1) * (2 * k + 2)) * q)

/-- The function `Math.cos`, which the language leaves to the implementation
to approximate: the cosine series of the exact argument, summed exactly over
enough terms for the remainder to be far below the last bit, and rounded
once. -/
def cos : F64 → F64
  | nan => nan
  | inf _ => nan
  | fin _ m e =>
    let num := if 0 ≤ e then (m <<< e.toNat) * (m <<< e.toNat) else m * m
    let den := if 0 ≤ e then 1 else 1 <<< (2 * (-e).toNat)
    let terms := 3 * (if 0 ≤ e then m <<< e.toNat else (m >>> (-e).toNat) + 1) + 60
    let pq := cosHorner terms num den 1 1
    roundRatio (decide (pq.1 < 0)) pq.1.natAbs pq.2 0

/-- The partial sum of the series of `sin x / x` in Horner form, as a fraction:
`s ↦ 1 - (num / den) / ((2k+2)(2k+3)) * s`. -/
def sinHorner : Nat → Nat → Nat → Int → Nat → Int × Nat
  | 0, _, _, p, q => (p, q)
  | k + 1, num, den, p, q =>
    sinHorner k num den
      ((den * ((2 * k + 2) * (2 * k + 3)) * q : Nat) - (num : Int) * p)
      (den * ((2 * k + 2) * (2 * k + 3)) * q)

/-- The function `Math.sin`, in the same way as `cos`. -/
def sin : F64 → F64
  | nan => nan
  | inf _ => nan
  | fin s m e =>
    let num := if 0 ≤ e then (m <<< e.toNat) * (m <<< e.toNat) else m * m
    let den := if 0 ≤ e then 1 else 1 <<< (2 * (-e).toNat)
    let terms := 3 * (if 0 ≤ e then m <<< e.toNat else (m >>> (-e).toNat) + 1) + 60
    let pq := sinHorner terms num den 1 1
    if 0 ≤ e then roundRatio (xor s (decide (pq.1 < 0))) ((m <<< e.toNat) * pq.1.natAbs) pq.2 0
    else roundRatio (xor s (decide (pq.1 < 0))) (m * pq.1.natAbs) (pq.2 <<< (-e).toNat) 0

/-- The constant `Math.PI`. -/
def PI : F64 := 3.141592653589793

/-- The exact value of a finite double as a fraction; `0` for `NaN` and the
infinities. -/
def toRat : F64 → ℚ
  | nan => 0
  | inf _ => 0
  | fin s m e =>
    if 0 ≤ e then mkRat (if s then -((m <<< e.toNat : Nat) : Int) else ((m <<< e.toNat : Nat) : Int)) 1
    else mkRat (if s then -(m : Int) else (m : Int)) (1 <<< (-e).toNat)

end F64

/-! ## The vector methods in double precision

The same method bodies as above, with the numbers, operators and functions of
the language in place of exact arithmetic.  A `none` result stands for the
value `undefined` or for the `TypeError` that reading a component of
`undefined` raises. -/

namespace Binary64

/-- The value of an optional numeric argument after `if (!a) a = dflt`: `!a`
holds for an omitted argument, for `NaN` and for the two zeros. -/
def orDefault (o : Option F64) (dflt : F64) : F64 :=
  match o with
  | none => dflt
  | some a => if a = F64.nan ∨ F64.eq a 0 = true then dflt else a

/-- The method `calculateDistance`; `Math.pow(t, 2)` is the rounded square of `t`. -/
def calculateDistance (pointA pointB : Point F64) : F64 :=
  F64.sqrt ((pointA.x - pointB.x) * (pointA.x - pointB.x)
    + (pointA.y - pointB.y) * (pointA.y - pointB.y))

/-- The method `toVector`. -/
def toVector (pointA pointB : Point F64) : Point F64 :=
  ⟨pointA.x - pointB.x, pointA.y - pointB.y⟩

/-- The method `calculateVector`: the pair `[v_l, v_r]`, or `none` when both
entries are left `undefined` (neither `v.y >= 0` nor `v.y < 0`).  An ordinate
left unassigned in the horizontal branch is `undefined`, read as the number
`NaN`. -/
def calculateVector (v : Point F64) (a d : Option F64) : Option (Point F64 × Point F64) :=
  let a := orDefault a (F64.PI / 2)
  let d := orDefault d 1
  let d_v := F64.sqrt (v.x * v.x + v.y * v.y)
  if F64.eq v.y 0 then
    let x_1 := d_v * d * F64.cos a / v.x
    let x_2 := x_1
    if F64.lt 0 v.x then
      let y_1 := F64.sqrt (d * d - x_1 * x_1)
      let y_2 := -y_1
      some (⟨x_1, y_1⟩, ⟨x_2, y_2⟩)
    else if F64.lt v.x 0 then
      let y_2 := F64.sqrt (d * d - x_1 * x_1)
      let y_1 := -y_2
      some (⟨x_1, y_1⟩, ⟨x_2, y_2⟩)
    else some (⟨x_1, F64.nan⟩, ⟨x_2, F64.nan⟩)
  else
    let n := -v.x / v.y
    let m := d * d_v * F64.cos a / v.y
    let a := 1 + n * n
    let b := 2 * n * m
    let c := m * m - d * d
    let x_1 := (-b - F64.sqrt (b * b - 4 * a * c)) / (2 * a)
    let x_2 := (-b + F64.sqrt (b * b - 4 * a * c)) / (2 * a)
    let y_1 := n * x_1 + m
    let y_2 := n * x_2 + m
    if F64.le 0 v.y then some (⟨x_1, y_1⟩, ⟨x_2, y_2⟩)
    else if F64.lt v.y 0 then some (⟨x_2, y_2⟩, ⟨x_1, y_1⟩)
    else none

/-- The radicand `d * d - x_1 * x_1` of the horizontal branch of
`calculateVector`, as the code computes it. -/
def horizontalRadicand (v : Point F64) (a d : Option F64) : F64 :=
  let a := orDefault a (F64.PI / 2)
  let d := orDefault d 1
  let d_v := F64.sqrt (v.x * v.x + v.y * v.y)
  let x_1 := d_v * d * F64.cos a / v.x
  d * d - x_1 * x_1

/-- The discriminant `b * b - 4 * a * c` of the general branch of
`calculateVector`, as the code computes it. -/
def quadraticDiscriminant (v : Point F64) (a d : Option F64) : F64 :=
  let a := orDefault a (F64.PI / 2)
  let d := orDefault d 1
  let d_v := F64.sqrt (v.x * v.x + v.y * v.y)
  let n := -v.x / v.y
  let m := d * d_v * F64.cos a / v.y
  let a := 1 + n * n
  let b := 2 * n * m
  let c := m * m - d * d
  b * b - 4 * a * c

/-- The closed form of the rotation, evaluated in double precision.  It is
written from the statement of the property, not from the source. -/
def rotatedToLength (v : Point F64) (a d : F64) : Point F64 × Point F64 :=
  let norm := F64.sqrt (v.x * v.x + v.y * v.y)
  (⟨d / norm * (v.x * F64.cos a - v.y * F64.sin a),
    d / norm * (v.x * F64.sin a + v.y * F64.cos a)⟩,
   ⟨d / norm * (v.x * F64.cos a + v.y * F64.sin a),
    d / norm * (-v.x * F64.sin a + v.y * F64.cos a)⟩)

/-- The method `calculateArrowLines`: the two line strings pushed to `arrowLines`. -/
def calculateArrowLines (startP endP : Point F64) (ratio angle : Option F64) :
    Option (List (LineString F64)) :=
  let ratio := orDefault ratio 10
  let angle := orDefault angle (F64.PI / 6)
  let dictance := calculateDistance startP endP
  let vector := toVector startP endP
  (calculateVector vector (some angle) (some (dictance / ratio))).map
    fun vectorArrows =>
      let arrowLineP_l : Point F64 := ⟨vectorArrows.1.x + endP.x, vectorArrows.1.y + endP.y⟩
      let arrowLineP_r : Point F64 := ⟨vectorArrows.2.x + endP.x, vectorArrows.2.y + endP.y⟩
      [[endP, arrowLineP_l], [endP, arrowLineP_r]]

/-- The method `calculateIntersection`: the tests are made on the rounded
products and differences. -/
def calculateIntersection (v_1 v_2 point1 point2 : Point F64) : Point F64 :=
  if F64.eq (v_1.y * v_2.x - v_1.x * v_2.y) 0 then
    if F64.lt 0 (v_1.x * v_2.x) || F64.lt 0 (v_1.y * v_2.y) then
      ⟨(point1.x + point2.x) / 2, (point1.y + point2.y) / 2⟩
    else
      ⟨point2.x, point2.y⟩
  else
    let x := (v_1.x * v_2.x * (point2.y - point1.y) + point1.x * v_1.y * v_2.x
              - point2.x * v_2.y * v_1.x) / (v_1.y * v_2.x - v_1.x * v_2.y)
    if !F64.eq v_1.x 0 then
      ⟨x, (x - point1.x) * v_1.y / v_1.x + point1.y⟩
    else
      ⟨x, (x - point2.x) * v_2.y / v_2.x + point2.y⟩

/-- The method `calculateAngularBisector`. -/
def calculateAngularBisector (v1 v2 : Point F64) : Point F64 :=
  let d1 := F64.sqrt (v1.x * v1.x + v1.y * v1.y)
  let d2 := F64.sqrt (v2.x * v2.x + v2.y * v2.y)
  ⟨v1.x / d1 + v2.x / d2, v1.y / d1 + v2.y / d2⟩

/-- The method `calculateIntersectionFromTwoCorner`: the pair `[pointI_l, pointI_r]`.
The argument `a_E` receives its default and is not read afterwards. -/
def calculateIntersectionFromTwoCorner (pointS pointE : Point F64) (a_S a_E : Option F64) :
    Option (Point F64 × Point F64) :=
  let a_S := orDefault a_S (F64.PI / 4)
  let _a_E := orDefault a_E (F64.PI / 4)
  let v_SE : Point F64 := ⟨pointE.x - pointS.x, pointE.y - pointS.y⟩
  (calculateVector v_SE (some a_S) (some 1)).bind fun v_SI_lr =>
    let v_SI_l := v_SI_lr.1
    let v_SI_r := v_SI_lr.2
    (calculateVector v_SE (some (F64.PI - a_S)) (some 1)).map fun v_EI_lr =>
      let v_EI_l := v_EI_lr.1
      let v_EI_r := v_EI_lr.2
      let pointI_l := calculateIntersection v_SI_l v_EI_l pointS pointE
      let pointI_r := calculateIntersection v_SI_r v_EI_r pointS pointE
      (pointI_l, pointI_r)

/-- Whether two points have the same coordinates. -/
def samePoint (p q : Point F64) : Bool :=
  F64.same p.x q.x && F64.same p.y q.y

/-- Whether a result is the pair of the two given points. -/
def samePair (r : Option (Point F64 × Point F64)) (p q : Point F64) : Bool :=
  match r with
  | some w => samePoint w.1 p && samePoint w.2 q
  | none => false

/-- Whether a result is the list of the two segments from `e` to `p` and from
`e` to `q`. -/
def sameSegments (r : Option (List (LineString F64))) (e p q : Point F64) : Bool :=
  match r with
  | some [[e1, p1], [e2, q1]] =>
    samePoint e1 e && samePoint p1 p && samePoint e2 e && samePoint q1 q
  | _ => false

end Binary64

/-! ## Line intersection -/

/-- C3, as amended: in exact arithmetic, for non-parallel directions `v_1`, `v_2` the point returned by
`calculateIntersection` lies on the line through `point1` with direction `v_1`
and on the line through `point2` with direction `v_2`. -/
theorem calculateIntersection_on_both_lines {K : Type} [LinearOrderedField K]
    (v_1 v_2 point1 point2 : Point K)
    (hnp : v_1.y * v_2.x - v_1.x * v_2.y ≠ 0) :
    ∃ t s : K,
      (calculateIntersection v_1 v_2 point1 point2).x = point1.x + t * v_1.x ∧
      (calculateIntersection v_1 v_2 point1 point2).y = point1.y + t * v_1.y ∧
      (calculateIntersection v_1 v_2 point1 point2).x = point2.x + s * v_2.x ∧
      (calculateIntersection v_1 v_2 point1 point2).y = point2.y + s * v_2.y := by
  obtain ⟨a, b⟩ := v_1
  obtain ⟨c, e⟩ := v_2
  obtain ⟨p, q⟩ := point1
  obtain ⟨r, u⟩ := point2
  simp only at hnp
  by_cases ha : a = 0
  · subst ha
    have hb : b ≠ 0 := by rintro rfl; simp at hnp
    have hc : c ≠ 0 := by rintro rfl; simp at hnp
    refine ⟨((p - r) * e / c + u - q) / b, (p - r) / c, ?_⟩
    simp only [calculateIntersection, if_neg hnp]
    simp only [ne_eq, not_true_eq_false, if_false]
    refine ⟨?_, ?_, ?_, ?_⟩ <;> field_simp <;> ring
  · by_cases hc : c = 0
    · subst hc
      have he : e ≠ 0 := by rintro rfl; simp at hnp
      refine ⟨(r - p) / a, ((r - p) * b / a + q - u) / e, ?_⟩
      simp only [calculateIntersection, if_neg hnp]
      simp only [ne_eq, ha, not_false_eq_true, if_true]
      refine ⟨?_, ?_, ?_, ?_⟩ <;> field_simp <;> ring
    · refine ⟨((a * c * (u - q) + p * b * c - r * e * a) / (b * c - a * e) - p) / a,
        ((a * c * (u - q) + p * b * c - r * e * a) / (b * c - a * e) - r) / c, ?_⟩
      simp only [calculateIntersection, if_neg hnp]
      simp only [ne_eq, ha, not_false_eq_true, if_true]
      refine ⟨?_, ?_, ?_, ?_⟩ <;> field_simp <;> ring

theorem calculateIntersection_on_both_lines_witness :
    ∃ t s : ℚ,
      (calculateIntersection (⟨1, 1⟩ : Point ℚ) ⟨1, -1⟩ ⟨0, 0⟩ ⟨2, 0⟩).x = 0 + t * 1 ∧
      (calculateIntersection (⟨1, 1⟩ : Point ℚ) ⟨1, -1⟩ ⟨0, 0⟩ ⟨2, 0⟩).y = 0 + t * 1 ∧
      (calculateIntersection (⟨1, 1⟩ : Point ℚ) ⟨1, -1⟩ ⟨0, 0⟩ ⟨2, 0⟩).x = 2 + s * 1 ∧
      (calculateIntersection (⟨1, 1⟩ : Point ℚ) ⟨1, -1⟩ ⟨0, 0⟩ ⟨2, 0⟩).y = 0 + s * (-1) :=
  calculateIntersection_on_both_lines (⟨1, 1⟩ : Point ℚ) ⟨1, -1⟩ ⟨0, 0⟩ ⟨2, 0⟩ (by norm_num)

/-- C8, as amended: in exact arithmetic, for non-parallel directions, exchanging the two lines gives the same
point: `calculateIntersection v_1 v_2 point1 point2` equals
`calculateIntersection v_2 v_1 point2 point1`. -/
theorem calculateIntersection_swap {K : Type} [LinearOrderedField K]
    (v_1 v_2 point1 point2 : Point K)
    (hnp : v_1.y * v_2.x - v_1.x * v_2.y ≠ 0) :
    calculateIntersection v_1 v_2 point1 point2 =
      calculateIntersection v_2 v_1 point2 point1 := by
  obtain ⟨a, b⟩ := v_1
  obtain ⟨c, e⟩ := v_2
  obtain ⟨p, q⟩ := point1
  obtain ⟨r, u⟩ := point2
  simp only at hnp
  have hnp2 : e * a - c * b ≠ 0 := by
    intro h
    apply hnp
    linear_combination -h
  have hx : (a * c * (u - q) + p * b * c - r * e * a) / (b * c - a * e) =
      (c * a * (q - u) + r * e * a - p * b * c) / (e * a - c * b) := by
    rw [div_eq_div_iff hnp hnp2]
    ring
  simp only [calculateIntersection, if_neg hnp, if_neg hnp2, hx]
  by_cases ha : a = 0
  · have hc : c ≠ 0 := by rintro rfl; simp [ha] at hnp
    simp only [ne_eq, ha, not_true_eq_false, if_false, hc, not_false_eq_true, if_true]
  · by_cases hc : c = 0
    · simp only [ne_eq, hc, not_true_eq_false, if_false, ha, not_false_eq_true, if_true]
    · simp only [ne_eq, hc, ha, not_false_eq_true, if_true, Point.mk.injEq, true_and]
      field_simp
      ring

theorem calculateIntersection_swap_witness :
    calculateIntersection (⟨1, 1⟩ : Point ℚ) ⟨1, -1⟩ ⟨0, 0⟩ ⟨2, 0⟩ =
      calculateIntersection (⟨1, -1⟩ : Point ℚ) ⟨1, 1⟩ ⟨2, 0⟩ ⟨0, 0⟩ :=
  calculateIntersection_swap (⟨1, 1⟩ : Point ℚ) ⟨1, -1⟩ ⟨0, 0⟩ ⟨2, 0⟩ (by norm_num)

/-! ## Rotation to a given length -/

/-- The discriminant of the quadratic of `calculateVector`, as a square. -/
theorem discriminant_eq_sq (vx vy d D c s : ℝ) (hvy : vy ≠ 0)
    (hD : D * D = vx * vx + vy * vy) (hcs : s * s + c * c = 1) :
    2 * (-vx / vy) * (d * D * c / vy) * (2 * (-vx / vy) * (d * D * c / vy))
        - 4 * (1 + -vx / vy * (-vx / vy)) * (d * D * c / vy * (d * D * c / vy) - d * d)
      = (2 * d * D * s / vy) ^ 2 := by
  have hc2 : c * c = 1 - s * s := by linarith
  field_simp
  ring_nf
  have e1 : vx ^ 2 = D * D - vy * vy := by nlinarith
  have e2 : c ^ 2 = 1 - s ^ 2 := by nlinarith
  rw [e1, e2]
  ring

/-- The smaller-sign root of the quadratic and its ordinate. -/
theorem root_minus (vx vy d D c s : ℝ) (hvy : vy ≠ 0) (hD0 : D ≠ 0)
    (hD : D * D = vx * vx + vy * vy) :
    (-(2 * (-vx / vy) * (d * D * c / vy)) - 2 * d * D * s / vy) / (2 * (D * D / (vy * vy)))
        = d / D * (vx * c - vy * s) ∧
    -vx / vy * (d / D * (vx * c - vy * s)) + d * D * c / vy
        = d / D * (vx * s + vy * c) := by
  have hvx2 : vx ^ 2 = D * D - vy * vy := by nlinarith
  constructor
  · field_simp
    ring
  · field_simp
    ring_nf
    rw [hvx2]
    ring

/-- The larger-sign root of the quadratic and its ordinate. -/
theorem root_plus (vx vy d D c s : ℝ) (hvy : vy ≠ 0) (hD0 : D ≠ 0)
    (hD : D * D = vx * vx + vy * vy) :
    (-(2 * (-vx / vy) * (d * D * c / vy)) + 2 * d * D * s / vy) / (2 * (D * D / (vy * vy)))
        = d / D * (vx * c + vy * s) ∧
    -vx / vy * (d / D * (vx * c + vy * s)) + d * D * c / vy
        = d / D * (-vx * s + vy * c) := by
  have hvx2 : vx ^ 2 = D * D - vy * vy := by nlinarith
  constructor
  · field_simp
    ring
  · field_simp
    ring_nf
    rw [hvx2]
    ring

/-- The closed form of `calculateVector`: the base vector scaled to length `d`
and turned by `a` counter-clockwise (first) and clockwise (second). -/
theorem calculateVector_closed_form (v : Point ℝ) (a d : ℝ)
    (hv : v.x ≠ 0 ∨ v.y ≠ 0) (ha0 : 0 < a) (haπ : a < Real.pi) (hd : 0 < d) :
    calculateVector Real.sqrt Real.cos Real.pi v (some a) (some d) =
      some (⟨d / Real.sqrt (v.x * v.x + v.y * v.y) * (v.x * Real.cos a - v.y * Real.sin a),
             d / Real.sqrt (v.x * v.x + v.y * v.y) * (v.x * Real.sin a + v.y * Real.cos a)⟩,
            ⟨d / Real.sqrt (v.x * v.x + v.y * v.y) * (v.x * Real.cos a + v.y * Real.sin a),
             d / Real.sqrt (v.x * v.x + v.y * v.y) * (-v.x * Real.sin a + v.y * Real.cos a)⟩) := by
  obtain ⟨vx, vy⟩ := v
  simp only at hv ⊢
  have hs : 0 < Real.sin a := Real.sin_pos_of_pos_of_lt_pi ha0 haπ
  have hcs : Real.sin a * Real.sin a + Real.cos a * Real.cos a = 1 := by
    have := Real.sin_sq_add_cos_sq a
    nlinarith
  have hsum : 0 < vx * vx + vy * vy := by
    rcases hv with h | h
    · have := mul_self_pos.mpr h
      nlinarith [mul_self_nonneg vy]
    · have := mul_self_pos.mpr h
      nlinarith [mul_self_nonneg vx]
  have hDpos : 0 < Real.sqrt (vx * vx + vy * vy) := Real.sqrt_pos.mpr hsum
  have hD : Real.sqrt (vx * vx + vy * vy) * Real.sqrt (vx * vx + vy * vy) = vx * vx + vy * vy :=
    Real.mul_self_sqrt hsum.le
  have ha : a ≠ 0 := ha0.ne.symm
  have hd0 : d ≠ 0 := hd.ne.symm
  simp only [calculateVector, orDefault, if_neg ha, if_neg hd0]
  generalize Real.sqrt (vx * vx + vy * vy) = D at hDpos hD ⊢
  generalize Real.cos a = c at hcs ⊢
  generalize Real.sin a = s at hs hcs ⊢
  have hD0 : D ≠ 0 := hDpos.ne.symm
  by_cases hvy : vy = 0
  · subst hvy
    have hvx : vx ≠ 0 := by simpa using hv
    have hDx : D * D = vx * vx := by linarith
    have hrad : d * d - D * d * c / vx * (D * d * c / vx) = (d * s) ^ 2 := by
      field_simp
      ring_nf
      have e1 : D ^ 2 = vx ^ 2 := by nlinarith
      have e2 : c ^ 2 = 1 - s ^ 2 := by nlinarith
      rw [e1, e2]
      ring
    have hsqrt : Real.sqrt (d * d - D * d * c / vx * (D * d * c / vx)) = d * s := by
      rw [hrad]
      exact Real.sqrt_sq (mul_pos hd hs).le
    have hnn : ¬ d * d - D * d * c / vx * (D * d * c / vx) < 0 := by
      rw [hrad]
      exact not_lt.mpr (sq_nonneg _)
    simp only [if_true, sqrtOrNaN, if_neg hnn, Option.map_some', hsqrt]
    rcases lt_or_gt_of_ne hvx with hneg | hpos
    · have hDv : D = -vx := by nlinarith
      subst hDv
      simp only [if_neg (not_lt.mpr hneg.le), if_pos hneg]
      simp only [Option.some.injEq, Prod.mk.injEq, Point.mk.injEq]
      refine ⟨⟨?_, ?_⟩, ?_, ?_⟩ <;> field_simp <;> ring
    · have hDv : D = vx := by nlinarith
      subst hDv
      simp only [if_pos hpos]
      simp only [Option.some.injEq, Prod.mk.injEq, Point.mk.injEq]
      refine ⟨⟨?_, ?_⟩, ?_, ?_⟩ <;> field_simp <;> ring
  · have hdisc := discriminant_eq_sq vx vy d D c s hvy hD hcs
    have hnn : ¬ (2 * d * D * s / vy) ^ 2 < 0 := not_lt.mpr (sq_nonneg _)
    have hA : 1 + -vx / vy * (-vx / vy) = D * D / (vy * vy) := by
      field_simp
      rw [hD]
      ring
    obtain ⟨hm1, hm2⟩ := root_minus vx vy d D c s hvy hD0 hD
    obtain ⟨hp1, hp2⟩ := root_plus vx vy d D c s hvy hD0 hD
    simp only [if_neg hvy, sqrtOrNaN, hdisc, if_neg hnn, Option.map_some',
      Real.sqrt_sq_eq_abs]
    rw [hA]
    rcases lt_or_gt_of_ne hvy with hneg | hpos
    · have habs : |2 * d * D * s / vy| = -(2 * d * D * s / vy) :=
        abs_of_neg (div_neg_of_pos_of_neg (by positivity) hneg)
      simp only [if_neg (not_le.mpr hneg), habs, sub_neg_eq_add, ← sub_eq_add_neg,
        hm1, hm2, hp1, hp2]
    · have habs : |2 * d * D * s / vy| = 2 * d * D * s / vy :=
        abs_of_pos (div_pos (by positivity) hpos)
      simp only [if_pos hpos.le, habs, hm1, hm2, hp1, hp2]

/-- A vector of the closed form has length `d` and makes the angle with `v`. -/
theorem rotated_magnitude_and_angle (vx vy d D c s e : ℝ) (hD0 : D ≠ 0)
    (hD : D * D = vx * vx + vy * vy) (hcs : s * s + c * c = 1) (he : e * e = 1) :
    (d / D * (vx * c - e * vy * s)) ^ 2 + (d / D * (e * vx * s + vy * c)) ^ 2 = d ^ 2 ∧
    vx * (d / D * (vx * c - e * vy * s)) + vy * (d / D * (e * vx * s + vy * c))
      = D * d * c := by
  have hvx2 : vx ^ 2 = D * D - vy * vy := by nlinarith
  have hc2 : c ^ 2 = 1 - s ^ 2 := by nlinarith
  have he2 : e ^ 2 = 1 := by nlinarith
  constructor
  · field_simp
    ring_nf
    rw [hvx2, hc2, he2]
    ring
  · field_simp
    ring_nf
    rw [hvx2]
    ring

/-- Both vectors of `calculateVector` have the requested length and angle. -/
theorem calculateVector_length_angle (v : Point ℝ) (a d : ℝ)
    (hv : v.x ≠ 0 ∨ v.y ≠ 0) (ha0 : 0 < a) (haπ : a < Real.pi) (hd : 0 < d) :
    ∃ w1 w2 : Point ℝ,
      calculateVector Real.sqrt Real.cos Real.pi v (some a) (some d) = some (w1, w2) ∧
      w1.x ^ 2 + w1.y ^ 2 = d ^ 2 ∧
      v.x * w1.x + v.y * w1.y = Real.sqrt (v.x * v.x + v.y * v.y) * d * Real.cos a ∧
      w2.x ^ 2 + w2.y ^ 2 = d ^ 2 ∧
      v.x * w2.x + v.y * w2.y = Real.sqrt (v.x * v.x + v.y * v.y) * d * Real.cos a := by
  have hsum : 0 < v.x * v.x + v.y * v.y := by
    rcases hv with h | h
    · have := mul_self_pos.mpr h
      nlinarith [mul_self_nonneg v.y]
    · have := mul_self_pos.mpr h
      nlinarith [mul_self_nonneg v.x]
  have hD0 : Real.sqrt (v.x * v.x + v.y * v.y) ≠ 0 := (Real.sqrt_pos.mpr hsum).ne.symm
  have hD := Real.mul_self_sqrt hsum.le
  have hcs : Real.sin a * Real.sin a + Real.cos a * Real.cos a = 1 := by
    have := Real.sin_sq_add_cos_sq a
    nlinarith
  obtain ⟨l1, l2⟩ := rotated_magnitude_and_angle v.x v.y d _ (Real.cos a) (Real.sin a) 1
    hD0 hD hcs (by norm_num)
  obtain ⟨r1, r2⟩ := rotated_magnitude_and_angle v.x v.y d _ (Real.cos a) (Real.sin a) (-1)
    hD0 hD hcs (by norm_num)
  refine ⟨_, _, calculateVector_closed_form v a d hv ha0 haπ hd, ?_, ?_, ?_, ?_⟩
  · simpa using l1
  · simpa using l2
  · simpa [sub_eq_add_neg] using r1
  · simpa [sub_eq_add_neg] using r2

/-- C2, as amended: in exact arithmetic, for a non-zero base vector `v`, an angle `a` in `(0, π)` and a length
`d > 0`, `calculateVector` returns two vectors, each of magnitude `d`
(`w.x² + w.y² = d²`) and each making the angle `a` with `v`
(`v·w = |v|·d·cos a`), in the horizontal and in the general branch. -/
theorem calculateVector_magnitude_and_angle (v : Point ℝ) (a d : ℝ)
    (hv : v.x ≠ 0 ∨ v.y ≠ 0) (ha0 : 0 < a) (haπ : a < Real.pi) (hd : 0 < d) :
    ∃ w1 w2 : Point ℝ,
      calculateVector Real.sqrt Real.cos Real.pi v (some a) (some d) = some (w1, w2) ∧
      w1.x ^ 2 + w1.y ^ 2 = d ^ 2 ∧
      v.x * w1.x + v.y * w1.y = Real.sqrt (v.x * v.x + v.y * v.y) * d * Real.cos a ∧
      w2.x ^ 2 + w2.y ^ 2 = d ^ 2 ∧
      v.x * w2.x + v.y * w2.y = Real.sqrt (v.x * v.x + v.y * v.y) * d * Real.cos a := by
  exact calculateVector_length_angle v a d hv ha0 haπ hd

theorem calculateVector_magnitude_and_angle_witness :
    ∃ w1 w2 : Point ℝ,
      calculateVector Real.sqrt Real.cos Real.pi ⟨3, 4⟩ (some (Real.pi / 3)) (some 2)
        = some (w1, w2) ∧
      w1.x ^ 2 + w1.y ^ 2 = (2 : ℝ) ^ 2 ∧
      (Point.mk 3 4 : Point ℝ).x * w1.x + (Point.mk 3 4 : Point ℝ).y * w1.y
        = Real.sqrt ((Point.mk 3 4 : Point ℝ).x * (Point.mk 3 4 : Point ℝ).x
            + (Point.mk 3 4 : Point ℝ).y * (Point.mk 3 4 : Point ℝ).y) * 2
          * Real.cos (Real.pi / 3) ∧
      w2.x ^ 2 + w2.y ^ 2 = (2 : ℝ) ^ 2 ∧
      (Point.mk 3 4 : Point ℝ).x * w2.x + (Point.mk 3 4 : Point ℝ).y * w2.y
        = Real.sqrt ((Point.mk 3 4 : Point ℝ).x * (Point.mk 3 4 : Point ℝ).x
            + (Point.mk 3 4 : Point ℝ).y * (Point.mk 3 4 : Point ℝ).y) * 2
          * Real.cos (Real.pi / 3) :=
  calculateVector_magnitude_and_angle ⟨3, 4⟩ (Real.pi / 3) 2 (Or.inl (by norm_num))
    (by positivity) (by linarith [Real.pi_pos]) (by norm_num)

/-! ## Arrow barbs -/

/-- The two segments of `calculateArrowLines` for the ratio and angle in force
after the defaults are applied. -/
theorem calculateArrowLines_segments (startP endP : Point ℝ) (ro ao : Option ℝ)
    (ratio angle : ℝ) (hro : orDefault ro 10 = ratio)
    (hao : orDefault ao (Real.pi / 6) = angle)
    (hne : startP ≠ endP) (hr : 0 < ratio) (ha0 : 0 < angle) (haπ : angle < Real.pi) :
    ∃ pl pr : Point ℝ,
      calculateArrowLines Real.sqrt Real.cos Real.pi startP endP ro ao
        = some [[endP, pl], [endP, pr]] ∧
      calculateDistance Real.sqrt endP pl
        = calculateDistance Real.sqrt startP endP / ratio ∧
      (pl.x - endP.x) * (startP.x - endP.x) + (pl.y - endP.y) * (startP.y - endP.y)
        = calculateDistance Real.sqrt endP pl * calculateDistance Real.sqrt startP endP
            * Real.cos angle ∧
      calculateDistance Real.sqrt endP pr
        = calculateDistance Real.sqrt startP endP / ratio ∧
      (pr.x - endP.x) * (startP.x - endP.x) + (pr.y - endP.y) * (startP.y - endP.y)
        = calculateDistance Real.sqrt endP pr * calculateDistance Real.sqrt startP endP
            * Real.cos angle := by
  have hv : (toVector startP endP).x ≠ 0 ∨ (toVector startP endP).y ≠ 0 := by
    by_contra h
    push_neg at h
    apply hne
    obtain ⟨sx, sy⟩ := startP
    obtain ⟨ex, ey⟩ := endP
    simp only [toVector] at h
    simp only [Point.mk.injEq]
    exact ⟨by linarith [h.1], by linarith [h.2]⟩
  have hsum : 0 < (startP.x - endP.x) ^ 2 + (startP.y - endP.y) ^ 2 := by
    simp only [toVector] at hv
    rcases hv with h | h
    · have := pow_pos (abs_pos.mpr h) 2
      rw [sq_abs] at this
      nlinarith [sq_nonneg (startP.y - endP.y)]
    · have := pow_pos (abs_pos.mpr h) 2
      rw [sq_abs] at this
      nlinarith [sq_nonneg (startP.x - endP.x)]
  have hdist : 0 < calculateDistance Real.sqrt startP endP := Real.sqrt_pos.mpr hsum
  have hd : 0 < calculateDistance Real.sqrt startP endP / ratio := div_pos hdist hr
  have hDv : Real.sqrt ((toVector startP endP).x * (toVector startP endP).x
      + (toVector startP endP).y * (toVector startP endP).y)
      = calculateDistance Real.sqrt startP endP := by
    simp only [toVector, calculateDistance, pow_two]
  obtain ⟨w1, w2, hw, m1, g1, m2, g2⟩ := calculateVector_length_angle (toVector startP endP)
    angle (calculateDistance Real.sqrt startP endP / ratio) hv ha0 haπ hd
  rw [hDv] at g1 g2
  have len : ∀ w : Point ℝ,
      w.x ^ 2 + w.y ^ 2 = (calculateDistance Real.sqrt startP endP / ratio) ^ 2 →
      calculateDistance Real.sqrt endP ⟨w.x + endP.x, w.y + endP.y⟩
        = calculateDistance Real.sqrt startP endP / ratio := by
    intro w hw2
    have : (endP.x - (w.x + endP.x)) ^ 2 + (endP.y - (w.y + endP.y)) ^ 2
        = (calculateDistance Real.sqrt startP endP / ratio) ^ 2 := by
      rw [← hw2]
      ring
    simp only [calculateDistance] at this ⊢
    rw [this]
    exact Real.sqrt_sq hd.le
  refine ⟨⟨w1.x + endP.x, w1.y + endP.y⟩, ⟨w2.x + endP.x, w2.y + endP.y⟩, ?_,
    len w1 m1, ?_, len w2 m2, ?_⟩
  · simp only [calculateArrowLines, hro, hao, hw, Option.map_some']
  · rw [len w1 m1]
    simp only [toVector] at g1
    linear_combination g1
  · rw [len w2 m2]
    simp only [toVector] at g2
    linear_combination g2

/-- C4, as amended: in exact arithmetic, for two distinct points `startP` and `endP`, `calculateArrowLines` with
the default ratio `10` and the default angle `π/6` returns exactly two segments,
each starting at `endP`, of length `calculateDistance startP endP / 10`, and
making the angle `π/6` with the reversed direction `startP − endP`; for a given
ratio `> 0` and a given angle in `(0, π)` the length is the distance divided by
the ratio and the angle is the given one. -/
theorem calculateArrowLines_default_and_general (startP endP : Point ℝ) (ratio angle : ℝ)
    (hne : startP ≠ endP) (hr : 0 < ratio) (ha0 : 0 < angle) (haπ : angle < Real.pi) :
    (∃ pl pr : Point ℝ,
      calculateArrowLines Real.sqrt Real.cos Real.pi startP endP none none
        = some [[endP, pl], [endP, pr]] ∧
      calculateDistance Real.sqrt endP pl = calculateDistance Real.sqrt startP endP / 10 ∧
      (pl.x - endP.x) * (startP.x - endP.x) + (pl.y - endP.y) * (startP.y - endP.y)
        = calculateDistance Real.sqrt endP pl * calculateDistance Real.sqrt startP endP
            * Real.cos (Real.pi / 6) ∧
      calculateDistance Real.sqrt endP pr = calculateDistance Real.sqrt startP endP / 10 ∧
      (pr.x - endP.x) * (startP.x - endP.x) + (pr.y - endP.y) * (startP.y - endP.y)
        = calculateDistance Real.sqrt endP pr * calculateDistance Real.sqrt startP endP
            * Real.cos (Real.pi / 6)) ∧
    (∃ pl pr : Point ℝ,
      calculateArrowLines Real.sqrt Real.cos Real.pi startP endP (some ratio) (some angle)
        = some [[endP, pl], [endP, pr]] ∧
      calculateDistance Real.sqrt endP pl
        = calculateDistance Real.sqrt startP endP / ratio ∧
      (pl.x - endP.x) * (startP.x - endP.x) + (pl.y - endP.y) * (startP.y - endP.y)
        = calculateDistance Real.sqrt endP pl * calculateDistance Real.sqrt startP endP
            * Real.cos angle ∧
      calculateDistance Real.sqrt endP pr
        = calculateDistance Real.sqrt startP endP / ratio ∧
      (pr.x - endP.x) * (startP.x - endP.x) + (pr.y - endP.y) * (startP.y - endP.y)
        = calculateDistance Real.sqrt endP pr * calculateDistance Real.sqrt startP endP
            * Real.cos angle) := by
  constructor
  · exact calculateArrowLines_segments startP endP none none 10 (Real.pi / 6) rfl rfl hne
      (by norm_num) (by positivity) (by linarith [Real.pi_pos])
  · exact calculateArrowLines_segments startP endP (some ratio) (some angle) ratio angle
      (by simp [orDefault, hr.ne.symm]) (by simp [orDefault, ha0.ne.symm]) hne hr ha0 haπ

theorem calculateArrowLines_default_and_general_witness :
    (∃ pl pr : Point ℝ,
      calculateArrowLines Real.sqrt Real.cos Real.pi (⟨0, 0⟩ : Point ℝ) (⟨3, 4⟩ : Point ℝ) none none
        = some [[(⟨3, 4⟩ : Point ℝ), pl], [(⟨3, 4⟩ : Point ℝ), pr]] ∧
      calculateDistance Real.sqrt (⟨3, 4⟩ : Point ℝ) pl = calculateDistance Real.sqrt (⟨0, 0⟩ : Point ℝ) (⟨3, 4⟩ : Point ℝ) / 10 ∧
      (pl.x - (⟨3, 4⟩ : Point ℝ).x) * ((⟨0, 0⟩ : Point ℝ).x - (⟨3, 4⟩ : Point ℝ).x) + (pl.y - (⟨3, 4⟩ : Point ℝ).y) * ((⟨0, 0⟩ : Point ℝ).y - (⟨3, 4⟩ : Point ℝ).y)
        = calculateDistance Real.sqrt (⟨3, 4⟩ : Point ℝ) pl * calculateDistance Real.sqrt (⟨0, 0⟩ : Point ℝ) (⟨3, 4⟩ : Point ℝ)
            * Real.cos (Real.pi / 6) ∧
      calculateDistance Real.sqrt (⟨3, 4⟩ : Point ℝ) pr = calculateDistance Real.sqrt (⟨0, 0⟩ : Point ℝ) (⟨3, 4⟩ : Point ℝ) / 10 ∧
      (pr.x - (⟨3, 4⟩ : Point ℝ).x) * ((⟨0, 0⟩ : Point ℝ).x - (⟨3, 4⟩ : Point ℝ).x) + (pr.y - (⟨3, 4⟩ : Point ℝ).y) * ((⟨0, 0⟩ : Point ℝ).y - (⟨3, 4⟩ : Point ℝ).y)
        = calculateDistance Real.sqrt (⟨3, 4⟩ : Point ℝ) pr * calculateDistance Real.sqrt (⟨0, 0⟩ : Point ℝ) (⟨3, 4⟩ : Point ℝ)
            * Real.cos (Real.pi / 6)) ∧
    (∃ pl pr : Point ℝ,
      calculateArrowLines Real.sqrt Real.cos Real.pi (⟨0, 0⟩ : Point ℝ) (⟨3, 4⟩ : Point ℝ) (some 5) (some (Real.pi / 3))
        = some [[(⟨3, 4⟩ : Point ℝ), pl], [(⟨3, 4⟩ : Point ℝ), pr]] ∧
      calculateDistance Real.sqrt (⟨3, 4⟩ : Point ℝ) pl
        = calculateDistance Real.sqrt (⟨0, 0⟩ : Point ℝ) (⟨3, 4⟩ : Point ℝ) / 5 ∧
      (pl.x - (⟨3, 4⟩ : Point ℝ).x) * ((⟨0, 0⟩ : Point ℝ).x - (⟨3, 4⟩ : Point ℝ).x) + (pl.y - (⟨3, 4⟩ : Point ℝ).y) * ((⟨0, 0⟩ : Point ℝ).y - (⟨3, 4⟩ : Point ℝ).y)
        = calculateDistance Real.sqrt (⟨3, 4⟩ : Point ℝ) pl * calculateDistance Real.sqrt (⟨0, 0⟩ : Point ℝ) (⟨3, 4⟩ : Point ℝ)
            * Real.cos (Real.pi / 3) ∧
      calculateDistance Real.sqrt (⟨3, 4⟩ : Point ℝ) pr
        = calculateDistance Real.sqrt (⟨0, 0⟩ : Point ℝ) (⟨3, 4⟩ : Point ℝ) / 5 ∧
      (pr.x - (⟨3, 4⟩ : Point ℝ).x) * ((⟨0, 0⟩ : Point ℝ).x - (⟨3, 4⟩ : Point ℝ).x) + (pr.y - (⟨3, 4⟩ : Point ℝ).y) * ((⟨0, 0⟩ : Point ℝ).y - (⟨3, 4⟩ : Point ℝ).y)
        = calculateDistance Real.sqrt (⟨3, 4⟩ : Point ℝ) pr * calculateDistance Real.sqrt (⟨0, 0⟩ : Point ℝ) (⟨3, 4⟩ : Point ℝ)
            * Real.cos (Real.pi / 3)) :=
  calculateArrowLines_default_and_general ⟨0, 0⟩ ⟨3, 4⟩ 5 (Real.pi / 3)
    (fun h => by simpa using congrArg Point.x h) (by norm_num) (by positivity)
    (by linarith [Real.pi_pos])

/-! ## Third vertex from two base angles -/

/-- The method `calculateIntersection` at the two barb directions of an
equilateral triangle on the base from `(0, 0)` to `(2, 0)`. -/
theorem intersection_equilateral (t : ℝ) (ht : 0 < t) :
    calculateIntersection (⟨1 / 2, t / 2⟩ : Point ℝ) ⟨-(1 / 2), t / 2⟩ ⟨0, 0⟩ ⟨2, 0⟩
        = ⟨1, t⟩ ∧
    calculateIntersection (⟨1 / 2, -(t / 2)⟩ : Point ℝ) ⟨-(1 / 2), -(t / 2)⟩ ⟨0, 0⟩ ⟨2, 0⟩
        = ⟨1, -t⟩ := by
  have h1 : t / 2 * -(1 / 2) - 1 / 2 * (t / 2) ≠ 0 := by
    intro h
    nlinarith
  have h2 : -(t / 2) * -(1 / 2) - 1 / 2 * -(t / 2) ≠ 0 := by
    intro h
    nlinarith
  have h3 : (1 / 2 : ℝ) ≠ 0 := by norm_num
  have x1 : (1 / 2 * -(1 / 2) * ((0 : ℝ) - 0) + 0 * (t / 2) * -(1 / 2) - 2 * (t / 2) * (1 / 2))
      / (t / 2 * -(1 / 2) - 1 / 2 * (t / 2)) = 1 := by
    rw [div_eq_iff h1]
    ring
  have x2 : (1 / 2 * -(1 / 2) * ((0 : ℝ) - 0) + 0 * -(t / 2) * -(1 / 2)
      - 2 * -(t / 2) * (1 / 2)) / (-(t / 2) * -(1 / 2) - 1 / 2 * -(t / 2)) = 1 := by
    rw [div_eq_iff h2]
    ring
  constructor
  · simp only [calculateIntersection, if_neg h1, h3, ne_eq, not_false_eq_true, if_true,
      Point.mk.injEq, x1, true_and]
    ring
  · simp only [calculateIntersection, if_neg h2, h3, ne_eq, not_false_eq_true, if_true,
      Point.mk.injEq, x2, true_and]
    ring

/-- The method `calculateIntersectionFromTwoCorner` on the base from `(0, 0)` to
`(2, 0)` with `a_S = π/3` and `a_E = π/6`. -/
theorem calculateIntersectionFromTwoCorner_equilateral :
    calculateIntersectionFromTwoCorner Real.sqrt Real.cos Real.pi
        (⟨0, 0⟩ : Point ℝ) ⟨2, 0⟩ (some (Real.pi / 3)) (some (Real.pi / 6))
      = some (⟨1, Real.sqrt 3⟩, ⟨1, -Real.sqrt 3⟩) := by
  have hpi := Real.pi_pos
  have h3 : Real.pi / 3 ≠ 0 := by positivity
  have hs4 : Real.sqrt (2 * 2 + 0 * 0) = 2 := by
    rw [show (2 * 2 + 0 * 0 : ℝ) = 2 ^ 2 by norm_num]
    exact Real.sqrt_sq (by norm_num)
  have c1 := calculateVector_closed_form ⟨2, 0⟩ (Real.pi / 3) 1 (Or.inl (by norm_num))
    (by positivity) (by linarith) (by norm_num)
  have c2 := calculateVector_closed_form ⟨2, 0⟩ (Real.pi - Real.pi / 3) 1
    (Or.inl (by norm_num)) (by linarith) (by linarith) (by norm_num)
  simp only [hs4, Real.cos_pi_sub, Real.sin_pi_sub, Real.cos_pi_div_three,
    Real.sin_pi_div_three] at c1 c2
  simp only [calculateIntersectionFromTwoCorner, orDefault, if_neg h3, sub_zero, c1, c2,
    Option.some_bind, Option.map_some']
  have ht : 0 < Real.sqrt 3 := Real.sqrt_pos.mpr (by norm_num)
  obtain ⟨e1, e2⟩ := intersection_equilateral (Real.sqrt 3) ht
  norm_num
  have e : (1 / 2 : ℝ) * (2 * (Real.sqrt 3 / 2)) = Real.sqrt 3 / 2 := by ring
  rw [e]
  exact ⟨e1, e2⟩

/-- C7: on the base from `(0, 0)` to `(2, 0)` with `a_S = π/3` and `a_E = π/6`,
`calculateIntersectionFromTwoCorner` returns `(1, √3)` and `(1, −√3)`; the angle
at `pointE` between the base and the side to the first returned point is `π/3`
(the value of `a_S`), and it is not `a_E = π/6`. -/
theorem calculateIntersectionFromTwoCorner_angle_at_pointE :
    calculateIntersectionFromTwoCorner Real.sqrt Real.cos Real.pi
        (⟨0, 0⟩ : Point ℝ) ⟨2, 0⟩ (some (Real.pi / 3)) (some (Real.pi / 6))
      = some (⟨1, Real.sqrt 3⟩, ⟨1, -Real.sqrt 3⟩) ∧
    ((1 : ℝ) - 2) * (0 - 2) + (Real.sqrt 3 - 0) * (0 - 0)
      = calculateDistance Real.sqrt ⟨2, 0⟩ ⟨1, Real.sqrt 3⟩
          * calculateDistance Real.sqrt ⟨2, 0⟩ ⟨0, 0⟩ * Real.cos (Real.pi / 3) ∧
    ((1 : ℝ) - 2) * (0 - 2) + (Real.sqrt 3 - 0) * (0 - 0)
      ≠ calculateDistance Real.sqrt ⟨2, 0⟩ ⟨1, Real.sqrt 3⟩
          * calculateDistance Real.sqrt ⟨2, 0⟩ ⟨0, 0⟩ * Real.cos (Real.pi / 6) := by
  have h3 : Real.sqrt 3 ^ 2 = 3 := Real.sq_sqrt (by norm_num)
  have ht : 0 < Real.sqrt 3 := Real.sqrt_pos.mpr (by norm_num)
  have d1 : calculateDistance Real.sqrt (⟨2, 0⟩ : Point ℝ) ⟨1, Real.sqrt 3⟩ = 2 := by
    simp only [calculateDistance]
    rw [show ((2 : ℝ) - 1) ^ 2 + (0 - Real.sqrt 3) ^ 2 = 2 ^ 2 by nlinarith]
    exact Real.sqrt_sq (by norm_num)
  have d2 : calculateDistance Real.sqrt (⟨2, 0⟩ : Point ℝ) ⟨0, 0⟩ = 2 := by
    simp only [calculateDistance]
    rw [show ((2 : ℝ) - 0) ^ 2 + (0 - 0) ^ 2 = 2 ^ 2 by norm_num]
    exact Real.sqrt_sq (by norm_num)
  refine ⟨calculateIntersectionFromTwoCorner_equilateral, ?_, ?_⟩
  · rw [d1, d2, Real.cos_pi_div_three]
    norm_num
  · rw [d1, d2, Real.cos_pi_div_six]
    intro h
    nlinarith

/-! ## Area, control points and cloning -/

/-- The loop of `getArea` subtracts the absolute areas of the later parts. -/
theorem foldl_sub_abs {K : Type} [LinearOrderedField K] (partArea : LineString K → K)
    (rest : List (LineString K)) (area : K) :
    rest.foldl (fun area ci => area - |partArea ci|) area
      = area - (rest.map fun ci => |partArea ci|).sum := by
  induction rest generalizing area with
  | nil => simp
  | cons c cs ih =>
    simp only [List.foldl_cons, List.map_cons, List.sum_cons, ih]
    ring

/-- C5: `getArea` returns `0` when the instance has no parts, and otherwise the
absolute shoelace area of the first part minus the sum of the absolute shoelace
areas of the later parts, each part taken as an implicitly closed ring; an outer
square of side `4` with one inner square of side `2` gives `12`. -/
theorem getArea_outer_minus_holes {K : Type} [LinearOrderedField K]
    (cps : Option (List (Point K))) :
    getArea shoelaceArea (⟨cps, []⟩ : GeoMultiLinePlotting K) = 0 ∧
    (∀ (c0 : LineString K) (rest : List (LineString K)),
      getArea shoelaceArea ⟨cps, c0 :: rest⟩
        = |shoelaceArea c0| - (rest.map fun ci => |shoelaceArea ci|).sum) ∧
    getArea shoelaceArea
      (⟨cps, [[⟨0, 0⟩, ⟨4, 0⟩, ⟨4, 4⟩, ⟨0, 4⟩], [⟨1, 1⟩, ⟨3, 1⟩, ⟨3, 3⟩, ⟨1, 3⟩]]⟩ :
        GeoMultiLinePlotting K) = 12 := by
  refine ⟨rfl, ?_, ?_⟩
  · intro c0 rest
    simp only [getArea, foldl_sub_abs, zero_add]
  · simp only [getArea, foldl_sub_abs, zero_add, shoelaceArea, crossSum, List.take,
      List.cons_append, List.nil_append, List.map_cons, List.map_nil, List.sum_cons,
      List.sum_nil]
    norm_num

/-- C6: `setControlPoint` called with an absent argument or with an empty
sequence returns normally, and the instance, its control points and its parts,
is the one before the call, whatever `calculateParts` the instance has. -/
theorem setControlPoint_absent_or_empty {K : Type}
    (calcParts : GeoMultiLinePlotting K → Except JsError (GeoMultiLinePlotting K))
    (self : GeoMultiLinePlotting K) :
    setControlPoint calcParts self none = Except.ok self ∧
    setControlPoint calcParts self (some []) = Except.ok self := by
  constructor
  · rfl
  · simp [setControlPoint, pure, Except.pure]

/-- C10: `clone` of an instance that holds control points returns an instance
with the same control points and the same parts, in order; `clone` of the
instance the constructor builds when it is called without points, as `clone`
itself calls it, raises a `TypeError`. -/
theorem clone_present_and_absent {K : Type} (cps : List (Point K))
    (components : List (LineString K)) :
    clone (⟨some cps, components⟩ : GeoMultiLinePlotting K)
      = Except.ok ⟨some cps, components⟩ ∧
    (∃ s : GeoMultiLinePlotting K,
      newGeoMultiLinePlotting calculateParts none = Except.ok s ∧
      clone s = Except.error JsError.typeError) := by
  constructor
  · have hp : (Point.clone : Point K → Point K) = id := rfl
    have hl : (LineString.clone : LineString K → LineString K) = id := by
      funext l
      simp [LineString.clone, hp]
    simp only [clone, newGeoMultiLinePlotting, hp, hl, List.map_id]
    rfl
  · exact ⟨⟨none, []⟩, rfl, rfl⟩

/-! ## Reading control points from a text -/

/-- The text left after a lazy run is shorter than the text it started from. -/
theorem lazyDotStarBrace_length (cs m rest : Text)
    (h : lazyDotStarBrace cs = some (m, rest)) : rest.length < cs.length := by
  induction cs generalizing m with
  | nil => simp [lazyDotStarBrace] at h
  | cons c cs ih =>
    simp only [lazyDotStarBrace] at h
    split at h
    · simp only [Option.some.injEq, Prod.mk.injEq] at h
      rw [← h.2]
      simp
    · split at h
      · exact absurd h (by simp)
      · split at h
        · rename_i m2 rest2 hm
          simp only [Option.some.injEq, Prod.mk.injEq] at h
          have := ih m2 (by rw [hm, h.2])
          simp only [List.length_cons]
          omega
        · exact absurd h (by simp)

/-- The matches do not depend on the fuel once it reaches the length of the
text: the fuel of `regexMatch` is never used up. -/
theorem matchAllFrom_fuel (fuel1 fuel2 : Nat) (s : Text)
    (h1 : s.length ≤ fuel1) (h2 : s.length ≤ fuel2) :
    matchAllFrom fuel1 s = matchAllFrom fuel2 s := by
  induction fuel1 generalizing fuel2 s with
  | zero =>
    have hs : s = [] := List.eq_nil_of_length_eq_zero (by omega)
    subst hs
    cases fuel2 <;> rfl
  | succ f ih =>
    cases s with
    | nil => cases fuel2 <;> rfl
    | cons c cs =>
      obtain ⟨g, rfl⟩ : ∃ g, fuel2 = g + 1 := ⟨fuel2 - 1, by simp at h2; omega⟩
      simp only [List.length_cons, Nat.add_le_add_iff_right] at h1 h2
      simp only [matchAllFrom]
      split
      · split
        · rename_i m rest hm
          have := lazyDotStarBrace_length cs m rest hm
          rw [ih g rest (by omega) (by omega)]
        · exact ih g cs h1 h2
      · exact ih g cs h1 h2

/-- The loop of `getControlPointsFromJSON` appends one point per match. -/
theorem evalLoop_forall₂ {K : Type} (evalPoint : Text → Except JsError (Point K))
    (frags : List Text) (pts : List (Point K))
    (hev : List.Forall₂ (fun f p => evalPoint f = Except.ok p) frags pts)
    (cps : List (Point K)) :
    evalLoop evalPoint frags cps = Except.ok (cps ++ pts) := by
  induction hev generalizing cps with
  | nil => simp [evalLoop, pure, Except.pure]
  | cons h _ ih =>
    simp only [evalLoop, h, bind, Except.bind, ih, List.append_assoc, List.singleton_append]

/-- C9, as amended: for a text with `k ≥ 1` matches of the pattern, each of
which evaluates to a coordinate object, `getControlPointsFromJSON` returns one
point per match, in the order of occurrence. -/
theorem getControlPointsFromJSON_one_point_per_match {K : Type}
    (evalPoint : Text → Except JsError (Point K)) (str : Text)
    (frags : List Text) (pts : List (Point K))
    (hm : regexMatch str = some frags)
    (hev : List.Forall₂ (fun f p => evalPoint f = Except.ok p) frags pts) :
    getControlPointsFromJSON evalPoint str = Except.ok pts := by
  simp only [getControlPointsFromJSON, hm]
  simpa using evalLoop_forall₂ evalPoint frags pts hev []

theorem getControlPointsFromJSON_one_point_per_match_witness :
    getControlPointsFromJSON evalCoordinateObject
        (String.toList "[\x7b\"x\":  1, \"y\": 2\x7d,\x7b\"x\":  -30, \"y\": 405\x7d]")
      = Except.ok [⟨1, 2⟩, ⟨-30, 405⟩] :=
  getControlPointsFromJSON_one_point_per_match evalCoordinateObject
    (String.toList "[\x7b\"x\":  1, \"y\": 2\x7d,\x7b\"x\":  -30, \"y\": 405\x7d]")
    [String.toList "\x7b\"x\":  1, \"y\": 2\x7d", String.toList "\x7b\"x\":  -30, \"y\": 405\x7d"]
    [⟨1, 2⟩, ⟨-30, 405⟩] rfl
    (List.Forall₂.cons rfl (List.Forall₂.cons rfl List.Forall₂.nil))

/-- C9, as stated, fails: a text without a match (the empty array text) makes
`getControlPointsFromJSON` raise a `TypeError` instead of returning the empty
sequence, and a text whose only match is not an expression makes it raise the
`SyntaxError` of `eval` instead of returning a point. -/
theorem getControlPointsFromJSON_rejects_texts :
    regexMatch (String.toList "[]") = none ∧
    getControlPointsFromJSON evalCoordinateObject (String.toList "[]")
      = Except.error JsError.typeError ∧
    regexMatch (String.toList "\x7b[\x7d") = some [String.toList "\x7b[\x7d"] ∧
    getControlPointsFromJSON evalCoordinateObject (String.toList "\x7b[\x7d")
      = Except.error JsError.syntaxError :=
  ⟨rfl, rfl, rfl, rfl⟩

/-! ## Writing and reading back -/

/-- A digit character is a digit of value its number. -/
theorem digitChar_spec (d : Nat) (hd : d < 10) :
    (digitChar d).isDigit = true ∧ (digitChar d).toNat - 48 = d := by
  interval_cases d <;> exact ⟨rfl, rfl⟩

/-- The decimal text consists of digits. -/
theorem natToText_isDigit (fuel n : Nat) :
    ∀ c ∈ natToText fuel n, c.isDigit = true := by
  induction fuel generalizing n with
  | zero => simp [natToText]
  | succ f ih =>
    intro c hc
    simp only [natToText] at hc
    split at hc
    · rename_i h
      simp only [List.mem_singleton] at hc
      rw [hc]
      exact (digitChar_spec n h).1
    · simp only [List.mem_append, List.mem_singleton] at hc
      rcases hc with hc | hc
      · exact ih _ c hc
      · rw [hc]
        exact (digitChar_spec _ (Nat.mod_lt _ (by norm_num))).1

/-- The value of a run of digits followed by one more digit. -/
theorem digitsToNat_append (ds : Text) (c : Char) :
    digitsToNat (ds ++ [c]) = 10 * digitsToNat ds + (c.toNat - 48) := by
  simp [digitsToNat, List.foldl_append]

/-- Reading the decimal text of a number gives the number back. -/
theorem digitsToNat_natToText (fuel n : Nat) (h : n < fuel) :
    digitsToNat (natToText fuel n) = n := by
  induction fuel generalizing n with
  | zero => omega
  | succ f ih =>
    simp only [natToText]
    split
    · rename_i h10
      simp [digitsToNat, (digitChar_spec n h10).2]
    · rw [digitsToNat_append, ih (n / 10) (by omega),
        (digitChar_spec _ (Nat.mod_lt _ (by norm_num))).2]
      omega

/-- A run of characters with a property, followed by a text that does not start
with such a character, is split at the end of the run. -/
theorem takeWhile_dropWhile_append (p : Char → Bool) (ds rest : Text)
    (hds : ∀ c ∈ ds, p c = true) (hrest : ∀ c ∈ rest.head?, p c = false) :
    (ds ++ rest).takeWhile p = ds ∧ (ds ++ rest).dropWhile p = rest := by
  induction ds with
  | nil =>
    cases rest with
    | nil => simp
    | cons r rs =>
      have hr : p r = false := hrest r (by simp)
      simp [List.takeWhile, List.dropWhile, hr]
  | cons d ds ih =>
    have hd : p d = true := hds d (by simp)
    have ih2 := ih (fun c hc => hds c (List.mem_cons_of_mem _ hc))
    simp [List.takeWhile, List.dropWhile, hd, ih2.1, ih2.2]

/-- Reading the decimal text of a natural number in front of a text that does
not start with a digit. -/
theorem readNat_natToText (n : Nat) (rest : Text) (hn : n < 2 ^ 53)
    (hrest : ∀ c ∈ rest.head?, c.isDigit = false) :
    readNat (natToText (n + 1) n ++ rest) = some (n, rest) := by
  obtain ⟨h1, h2⟩ := takeWhile_dropWhile_append Char.isDigit (natToText (n + 1) n) rest
    (natToText_isDigit (n + 1) n) hrest
  simp only [readNat, h1, h2, digitsToNat_natToText (n + 1) n (by omega), hn, and_self,
    if_true]

/-- The decimal text of a number starts with a digit. -/
theorem natToText_head (n : Nat) :
    ∃ c cs, natToText (n + 1) n = c :: cs ∧ c.isDigit = true := by
  have hne : natToText (n + 1) n ≠ [] := by
    simp only [natToText]
    split <;> simp
  obtain ⟨c, cs, h⟩ := List.exists_cons_of_ne_nil hne
  exact ⟨c, cs, h, natToText_isDigit (n + 1) n c (by rw [h]; simp)⟩

/-- The text of a number starts with a character that is no blank. -/
theorem numberToText_head (z : Int) :
    ∃ c cs, numberToText z = c :: cs ∧ c ≠ ' ' := by
  cases z with
  | ofNat n =>
    obtain ⟨c, cs, h, hc⟩ := natToText_head n
    refine ⟨c, cs, h, ?_⟩
    rintro rfl
    exact absurd hc (by decide)
  | negSucc n => exact ⟨'-', _, rfl, by decide⟩

/-- Reading the text of an integer in front of a text that does not start with
a digit gives the integer and that text. -/
theorem readInt_numberToText (z : Int) (rest : Text) (hz : isSafeInteger z = true)
    (hrest : ∀ c ∈ rest.head?, c.isDigit = false) :
    readInt (numberToText z ++ rest) = some (z, rest) := by
  simp only [isSafeInteger, Bool.and_eq_true, decide_eq_true_eq] at hz
  cases z with
  | ofNat n =>
    obtain ⟨c, cs, h, hc⟩ := natToText_head n
    have hr := readNat_natToText n rest (by
      have := hz.2
      simp only [Int.ofNat_eq_coe] at this
      exact_mod_cast this) hrest
    have hm : c ≠ '-' := by
      rintro rfl
      exact absurd hc (by decide)
    simp only [numberToText]
    rw [h] at hr ⊢
    simp only [List.cons_append] at hr ⊢
    simp only [readInt, if_neg hm, hr]
    rfl
  | negSucc n =>
    have hr := readNat_natToText (n + 1) rest (by
      have := hz.1
      rw [Int.negSucc_eq] at this
      have h2 : ((n + 1 : Nat) : Int) < 2 ^ 53 := by push_cast; linarith
      exact_mod_cast h2) hrest
    simp only [numberToText, List.cons_append, readInt, if_true, hr]
    simp [Int.negSucc_eq]

/-- The characters of the text of a control point. -/
theorem controlPointToJSON_chars {K : Type} (numberToString : K → Text) (cp : Point K) :
    controlPointToJSON numberToString cp
      = Char.ofNat 123 :: '"' :: 'x' :: '"' :: ':' :: ' ' :: ' ' ::
          (numberToString cp.x ++ (',' :: ' ' :: '"' :: 'y' :: '"' :: ':' :: ' ' ::
            (numberToString cp.y ++ [Char.ofNat 125]))) := by
  simp only [controlPointToJSON, List.append_assoc]
  rfl

/-- Leading blanks are skipped in front of the text of a number. -/
theorem skipBlanks_numberToText (z : Int) (rest : Text) :
    skipBlanks (numberToText z ++ rest) = numberToText z ++ rest := by
  obtain ⟨c, cs, h, hc⟩ := numberToText_head z
  rw [h]
  simp [skipBlanks, hc]

/-- The text of a control point evaluates to the control point. -/
theorem parseCoordinateObject_controlPointToJSON (cp : Point Int)
    (hx : isSafeInteger cp.x = true) (hy : isSafeInteger cp.y = true) :
    parseCoordinateObject (controlPointToJSON numberToText cp) = some cp := by
  have hx := readInt_numberToText cp.x
    (',' :: ' ' :: '"' :: 'y' :: '"' :: ':' :: ' ' :: (numberToText cp.y ++ [Char.ofNat 125]))
    hx (by simp)
  have hy := readInt_numberToText cp.y [Char.ofNat 125] hy (by simp)
  rw [controlPointToJSON_chars]
  simp only [parseCoordinateObject, expect, skipBlanks, String.toList, if_true,
    Option.bind_eq_bind, Option.some_bind, skipBlanks_numberToText, hx, hy]

/-- A digit is passed over. -/
theorem passedByDot_of_isDigit (c : Char) (h : c.isDigit = true) : passedByDot c := by
  have key : ∀ k : Char, k.isDigit = false → c ≠ k := by
    intro k hk hck
    rw [hck, hk] at h
    exact absurd h (by decide)
  refine ⟨key _ (by decide), ?_⟩
  simp only [isLineTerminator, Bool.or_eq_false_iff, decide_eq_false_iff_not]
  exact ⟨⟨⟨key _ (by decide), key _ (by decide)⟩, key _ (by decide)⟩, key _ (by decide)⟩

/-- The characters of the text of a number are passed over. -/
theorem passedByDot_numberToText (z : Int) : ∀ c ∈ numberToText z, passedByDot c := by
  intro c hc
  cases z with
  | ofNat n => exact passedByDot_of_isDigit c (natToText_isDigit _ _ c hc)
  | negSucc n =>
    simp only [numberToText, List.mem_cons] at hc
    rcases hc with rfl | hc
    · exact ⟨by decide, by decide⟩
    · exact passedByDot_of_isDigit c (natToText_isDigit _ _ c hc)

/-- The text of a control point is a brace, characters that are passed over,
and a brace, when the texts of its two numbers are passed over. -/
theorem controlPointToJSON_body {K : Type} (numberToString : K → Text) (cp : Point K)
    (hx : ∀ c ∈ numberToString cp.x, passedByDot c)
    (hy : ∀ c ∈ numberToString cp.y, passedByDot c) :
    ∃ body : Text,
      controlPointToJSON numberToString cp = Char.ofNat 123 :: (body ++ [Char.ofNat 125]) ∧
      ∀ c ∈ body, passedByDot c := by
  refine ⟨'"' :: 'x' :: '"' :: ':' :: ' ' :: ' ' ::
      (numberToString cp.x ++ (',' :: ' ' :: '"' :: 'y' :: '"' :: ':' :: ' ' ::
        numberToString cp.y)), ?_, ?_⟩
  · rw [controlPointToJSON_chars]
    simp
  · intro c hc
    simp only [List.mem_cons, List.mem_append] at hc
    have hfix : ∀ k : Char, k ≠ Char.ofNat 125 → isLineTerminator k = false →
        c = k → passedByDot c := by
      intro k h1 h2 hck
      rw [hck]
      exact ⟨h1, h2⟩
    rcases hc with h | h | h | h | h | h | h | h | h | h | h | h | h | h | h
    · exact hfix _ (by decide) (by decide) h
    · exact hfix _ (by decide) (by decide) h
    · exact hfix _ (by decide) (by decide) h
    · exact hfix _ (by decide) (by decide) h
    · exact hfix _ (by decide) (by decide) h
    · exact hfix _ (by decide) (by decide) h
    · exact hx c h
    · exact hfix _ (by decide) (by decide) h
    · exact hfix _ (by decide) (by decide) h
    · exact hfix _ (by decide) (by decide) h
    · exact hfix _ (by decide) (by decide) h
    · exact hfix _ (by decide) (by decide) h
    · exact hfix _ (by decide) (by decide) h
    · exact hfix _ (by decide) (by decide) h
    · exact hy c h

/-- The lazy run stops at the first closing brace. -/
theorem lazyDotStarBrace_append (body rest : Text) (hbody : ∀ c ∈ body, passedByDot c) :
    lazyDotStarBrace (body ++ Char.ofNat 125 :: rest)
      = some (body ++ [Char.ofNat 125], rest) := by
  induction body with
  | nil => simp [lazyDotStarBrace]
  | cons b bs ih =>
    obtain ⟨h1, h2⟩ := hbody b (by simp)
    have ih2 := ih (fun c hc => hbody c (List.mem_cons_of_mem _ hc))
    simp only [List.cons_append, lazyDotStarBrace, if_neg h1, h2, List.append_eq]
    rw [ih2]
    simp

/-- The text of a control point in front of a text is the first match. -/
theorem matchAllFrom_controlPointToJSON {K : Type} (numberToString : K → Text) (fuel : Nat)
    (cp : Point K) (rest : Text)
    (hx : ∀ c ∈ numberToString cp.x, passedByDot c)
    (hy : ∀ c ∈ numberToString cp.y, passedByDot c) :
    matchAllFrom (fuel + 1) (controlPointToJSON numberToString cp ++ rest)
      = controlPointToJSON numberToString cp :: matchAllFrom fuel rest := by
  obtain ⟨body, hcp, hbody⟩ := controlPointToJSON_body numberToString cp hx hy
  rw [hcp]
  show matchAllFrom (fuel + 1) (Char.ofNat 123 :: ((body ++ [Char.ofNat 125]) ++ rest)) = _
  rw [List.append_assoc, List.singleton_append]
  simp only [matchAllFrom, if_true, List.append_eq]
  rw [lazyDotStarBrace_append body rest hbody]

/-- The matches of the joined texts of control points, closed by a bracket, are
these texts, whenever the fuel is at least the length. -/
theorem matchAllFrom_join {K : Type} (numberToString : K → Text) (cps : List (Point K))
    (cp : Point K) (fuel : Nat)
    (htext : ∀ p ∈ cp :: cps,
      (∀ c ∈ numberToString p.x, passedByDot c) ∧ (∀ c ∈ numberToString p.y, passedByDot c))
    (hfuel : (join [','] ((cp :: cps).map (controlPointToJSON numberToString))
      ++ [']']).length ≤ fuel) :
    matchAllFrom fuel (join [','] ((cp :: cps).map (controlPointToJSON numberToString)) ++ [']'])
      = (cp :: cps).map (controlPointToJSON numberToString) := by
  induction cps generalizing cp fuel with
  | nil =>
    obtain ⟨hx, hy⟩ := htext cp (by simp)
    simp only [List.map_cons, List.map_nil, join] at hfuel ⊢
    obtain ⟨k, rfl⟩ : ∃ k, fuel = k + 1 := by
      simp only [List.length_append, List.length_singleton] at hfuel
      exact ⟨fuel - 1, by omega⟩
    rw [matchAllFrom_controlPointToJSON numberToString k cp _ hx hy]
    cases k with
    | zero => rfl
    | succ j =>
      have : matchAllFrom (j + 1) [']'] = [] := by
        simp only [matchAllFrom]
        rw [if_neg (by decide)]
        cases j <;> rfl
      rw [this]
  | cons c2 rest ih =>
    obtain ⟨hx, hy⟩ := htext cp (by simp)
    simp only [List.map_cons, join, List.append_assoc, List.singleton_append,
      List.length_append, List.length_cons] at hfuel ⊢
    have hlen : 0 < (controlPointToJSON numberToString cp).length := by
      obtain ⟨body, hcp, _⟩ := controlPointToJSON_body numberToString cp hx hy
      rw [hcp]
      simp
    obtain ⟨j, rfl⟩ : ∃ j, fuel = j + 1 + 1 := ⟨fuel - 2, by omega⟩
    rw [matchAllFrom_controlPointToJSON numberToString (j + 1) cp _ hx hy]
    have hstep : matchAllFrom (j + 1)
        (',' :: (join [','] (controlPointToJSON numberToString c2
          :: rest.map (controlPointToJSON numberToString)) ++ [']']))
        = matchAllFrom j
          (join [','] (controlPointToJSON numberToString c2
            :: rest.map (controlPointToJSON numberToString)) ++ [']']) := by
      simp only [matchAllFrom]
      rw [if_neg (by decide)]
    have ih2 := ih c2 j (fun p hp => htext p (List.mem_cons_of_mem _ hp)) (by
      simp only [List.map_cons, List.length_append, List.length_singleton]
      omega)
    simp only [List.map_cons] at ih2
    rw [List.cons_append, hstep, ih2]

/-- The array text of a non-empty sequence of control points, the text the
docstring of `getControlPointsFromJSON` describes, is read back as the sequence,
for every kind of number, every conversion of a number to a string whose
characters the dot passes over, and every evaluation that reads the text of each
point back as the point. -/
theorem getControlPointsFromJSON_array_text_of {K : Type} (numberToString : K → Text)
    (evalPoint : Text → Except JsError (Point K)) (cps : List (Point K)) (hne : cps ≠ [])
    (htext : ∀ p ∈ cps,
      (∀ c ∈ numberToString p.x, passedByDot c) ∧ (∀ c ∈ numberToString p.y, passedByDot c))
    (heval : ∀ p ∈ cps, evalPoint (controlPointToJSON numberToString p) = Except.ok p) :
    getControlPointsFromJSON evalPoint
        ('[' :: (join [','] (cps.map (controlPointToJSON numberToString)) ++ [']']))
      = Except.ok cps := by
  obtain ⟨cp, rest, rfl⟩ := List.exists_cons_of_ne_nil hne
  have hm : regexMatch
      ('[' :: (join [','] ((cp :: rest).map (controlPointToJSON numberToString)) ++ [']']))
      = some ((cp :: rest).map (controlPointToJSON numberToString)) := by
    simp only [regexMatch, List.length_cons, matchAllFrom]
    rw [if_neg (by decide), matchAllFrom_join numberToString rest cp _ htext (le_refl _)]
    rfl
  have hev : List.Forall₂ (fun f p => evalPoint f = Except.ok p)
      ((cp :: rest).map (controlPointToJSON numberToString)) (cp :: rest) := by
    rw [List.forall₂_map_left_iff]
    exact List.forall₂_same.mpr heval
  simp only [getControlPointsFromJSON, hm]
  simpa using evalLoop_forall₂ evalPoint _ _ hev []

/-- The text of a control point with safe integer coordinates evaluates to the
control point. -/
theorem evalCoordinateObject_controlPointToJSON (cp : Point Int)
    (hx : isSafeInteger cp.x = true) (hy : isSafeInteger cp.y = true) :
    evalCoordinateObject (controlPointToJSON numberToText cp) = Except.ok cp := by
  simp only [evalCoordinateObject, parseCoordinateObject_controlPointToJSON cp hx hy]
  rfl

/-- The array text of a non-empty sequence of control points with safe integer
coordinates is read back as the sequence. -/
theorem getControlPointsFromJSON_array_text (cps : List (Point Int)) (hne : cps ≠ [])
    (hsafe : ∀ p ∈ cps, isSafeInteger p.x = true ∧ isSafeInteger p.y = true) :
    getControlPointsFromJSON evalCoordinateObject
        ('[' :: (join [','] (cps.map (controlPointToJSON numberToText)) ++ [']']))
      = Except.ok cps :=
  getControlPointsFromJSON_array_text_of numberToText evalCoordinateObject cps hne
    (fun p _ => ⟨passedByDot_numberToText p.x, passedByDot_numberToText p.y⟩)
    (fun p hp => evalCoordinateObject_controlPointToJSON p (hsafe p hp).1 (hsafe p hp).2)

/-- C1, as amended: for every non-empty sequence `cps` of control points, `toJSON`
of an instance holding `cps` returns the text `{"controlPoints":` followed by an
array text and `}`, and `getControlPointsFromJSON` applied to that array text,
the form its docstring names, returns the points of `cps`, in the same order.
The numbers are of any kind; their conversion to a string and `eval` are those
of the language: the text of a number has no closing brace and no line
terminator, and `eval` reads the text of each point back as the point. -/
theorem toJSON_array_text_round_trip {K : Type} (numberToString : K → Text)
    (evalPoint : Text → Except JsError (Point K)) (cps : List (Point K))
    (components : List (LineString K)) (hne : cps ≠ [])
    (htext : ∀ p ∈ cps,
      (∀ c ∈ numberToString p.x, passedByDot c) ∧ (∀ c ∈ numberToString p.y, passedByDot c))
    (heval : ∀ p ∈ cps, evalPoint (controlPointToJSON numberToString p) = Except.ok p) :
    ∃ arr : Text,
      toJSON numberToString ⟨some cps, components⟩
        = some (String.toList "\x7b\"controlPoints\":" ++ arr ++ String.toList "\x7d") ∧
      getControlPointsFromJSON evalPoint arr = Except.ok cps := by
  refine ⟨'[' :: (join [','] (cps.map (controlPointToJSON numberToString)) ++ [']']), ?_,
    getControlPointsFromJSON_array_text_of numberToString evalPoint cps hne htext heval⟩
  simp only [toJSON, String.toList, List.append_assoc, List.cons_append, List.nil_append,
    Option.some.injEq]

theorem toJSON_array_text_round_trip_witness :
    ∃ arr : Text,
      toJSON numberToText ⟨some [⟨1, 2⟩, ⟨-30, 405⟩], []⟩
        = some (String.toList "\x7b\"controlPoints\":" ++ arr ++ String.toList "\x7d") ∧
      getControlPointsFromJSON evalCoordinateObject arr
        = Except.ok [⟨1, 2⟩, ⟨-30, 405⟩] :=
  toJSON_array_text_round_trip numberToText evalCoordinateObject [⟨1, 2⟩, ⟨-30, 405⟩] []
    (List.cons_ne_nil _ _)
    (fun p _ => ⟨passedByDot_numberToText p.x, passedByDot_numberToText p.y⟩)
    (fun p hp => evalCoordinateObject_controlPointToJSON p
      ((by decide : ∀ q ∈ ([⟨1, 2⟩, ⟨-30, 405⟩] : List (Point Int)),
        isSafeInteger q.x = true ∧ isSafeInteger q.y = true) p hp).1
      ((by decide : ∀ q ∈ ([⟨1, 2⟩, ⟨-30, 405⟩] : List (Point Int)),
        isSafeInteger q.x = true ∧ isSafeInteger q.y = true) p hp).2)

/-- C1, as stated, fails: for the control points `(1, 2)` and `(3, 4)` the text
returned by `toJSON` has two matches of the pattern, the first of which runs
from the opening brace of the whole text to the closing brace of the first
point; its bracket stays open, so it is not an expression, and
`getControlPointsFromJSON` raises the `SyntaxError` of `eval` instead of
returning the two points. -/
theorem toJSON_text_not_read_back :
    toJSON numberToText ⟨some [⟨1, 2⟩, ⟨3, 4⟩], []⟩
      = some (String.toList
          "\x7b\"controlPoints\":[\x7b\"x\":  1, \"y\": 2\x7d,\x7b\"x\":  3, \"y\": 4\x7d]\x7d") ∧
    regexMatch (String.toList
        "\x7b\"controlPoints\":[\x7b\"x\":  1, \"y\": 2\x7d,\x7b\"x\":  3, \"y\": 4\x7d]\x7d")
      = some [String.toList "\x7b\"controlPoints\":[\x7b\"x\":  1, \"y\": 2\x7d",
              String.toList "\x7b\"x\":  3, \"y\": 4\x7d"] ∧
    getControlPointsFromJSON evalCoordinateObject (String.toList
        "\x7b\"controlPoints\":[\x7b\"x\":  1, \"y\": 2\x7d,\x7b\"x\":  3, \"y\": 4\x7d]\x7d")
      = Except.error JsError.syntaxError :=
  ⟨rfl, rfl, rfl⟩

/-! ## Distance, difference vector, parallel lines, bisector -/

/-- C14: `calculateDistance` is symmetric: the distance of `pointA` and
`pointB` is the distance of `pointB` and `pointA`, whatever the square root. -/
theorem calculateDistance_symmetric {K : Type} [LinearOrderedField K] (sqrt : K → K)
    (pointA pointB : Point K) :
    calculateDistance sqrt pointA pointB = calculateDistance sqrt pointB pointA := by
  simp only [calculateDistance]
  congr 1
  ring

/-- C15: `toVector pointA pointB` is `(pointA.x − pointB.x, pointA.y − pointB.y)`,
and it is the negation of `toVector pointB pointA`, component by component. -/
theorem toVector_antisymmetric {K : Type} [LinearOrderedField K] (pointA pointB : Point K) :
    toVector pointA pointB = ⟨pointA.x - pointB.x, pointA.y - pointB.y⟩ ∧
    (toVector pointA pointB).x = -(toVector pointB pointA).x ∧
    (toVector pointA pointB).y = -(toVector pointB pointA).y := by
  refine ⟨rfl, ?_, ?_⟩ <;> simp only [toVector] <;> ring

/-- C13, as amended: in exact arithmetic, for a non-zero direction `v_1` and the parallel direction
`v_2 = k·v_1` with `k ≠ 0`, `calculateIntersection` returns the midpoint of
`point1` and `point2` when `k > 0` (same direction) and `point2` itself when
`k < 0` (opposite direction). -/
theorem calculateIntersection_parallel {K : Type} [LinearOrderedField K]
    (v_1 point1 point2 : Point K) (k : K)
    (hv : v_1.x ≠ 0 ∨ v_1.y ≠ 0) (hk : k ≠ 0) :
    calculateIntersection v_1 ⟨k * v_1.x, k * v_1.y⟩ point1 point2
      = if 0 < k then calculateMidpoint point1 point2 else point2 := by
  obtain ⟨a, b⟩ := v_1
  simp only at hv
  have hpar : b * (k * a) - a * (k * b) = 0 := by ring
  simp only [calculateIntersection, hpar, if_true, calculateMidpoint]
  have hxx : a * (k * a) = k * (a * a) := by ring
  have hyy : b * (k * b) = k * (b * b) := by ring
  rcases lt_or_gt_of_ne hk with hneg | hpos
  · have h1 : ¬ 0 < a * (k * a) := by
      rw [hxx]
      exact not_lt.mpr (mul_nonpos_of_nonpos_of_nonneg hneg.le (mul_self_nonneg a))
    have h2 : ¬ 0 < b * (k * b) := by
      rw [hyy]
      exact not_lt.mpr (mul_nonpos_of_nonpos_of_nonneg hneg.le (mul_self_nonneg b))
    rw [if_neg (not_or.mpr ⟨h1, h2⟩), if_neg (not_lt.mpr hneg.le)]
  · have h : 0 < a * (k * a) ∨ 0 < b * (k * b) := by
      rcases hv with ha | hb
      · left
        rw [hxx]
        exact mul_pos hpos (mul_self_pos.mpr ha)
      · right
        rw [hyy]
        exact mul_pos hpos (mul_self_pos.mpr hb)
    rw [if_pos h, if_pos hpos]

theorem calculateIntersection_parallel_witness :
    calculateIntersection (⟨1, 2⟩ : Point ℚ) ⟨(-3) * 1, (-3) * 2⟩ ⟨0, 0⟩ ⟨4, 6⟩
      = if (0 : ℚ) < -3 then calculateMidpoint (⟨0, 0⟩ : Point ℚ) ⟨4, 6⟩ else ⟨4, 6⟩ :=
  calculateIntersection_parallel (⟨1, 2⟩ : Point ℚ) ⟨0, 0⟩ ⟨4, 6⟩ (-3)
    (Or.inl (by norm_num)) (by norm_num)

/-- C17: the second angle does not influence the result of
`calculateIntersectionFromTwoCorner`: for all points, every `a_S` and every two
values `a_E` and `a_E'`, given or omitted, the two calls return the same. -/
theorem calculateIntersectionFromTwoCorner_second_angle_unused {K : Type}
    [LinearOrderedField K] (sqrt cos : K → K) (pi : K) (pointS pointE : Point K)
    (a_S a_E a_E' : Option K) :
    calculateIntersectionFromTwoCorner sqrt cos pi pointS pointE a_S a_E
      = calculateIntersectionFromTwoCorner sqrt cos pi pointS pointE a_S a_E' := by
  rfl

/-! ## Radicands, orientation and closed form of the rotation -/

/-- In the general branch `calculateVector` has no result exactly when the
discriminant is negative. -/
theorem calculateVector_eq_none_general {K : Type} [LinearOrderedField K]
    (sqrt cos : K → K) (pi : K) (v : Point K) (a d : Option K) (hvy : v.y ≠ 0) :
    calculateVector sqrt cos pi v a d = none
      ↔ quadraticDiscriminant sqrt cos pi v a d < 0 := by
  simp only [calculateVector, quadraticDiscriminant, if_neg hvy, sqrtOrNaN]
  split <;> simp_all

/-- In the horizontal branch, for a base vector that is not zero,
`calculateVector` has no result exactly when the radicand is negative. -/
theorem calculateVector_eq_none_horizontal {K : Type} [LinearOrderedField K]
    (sqrt cos : K → K) (pi : K) (v : Point K) (a d : Option K)
    (hvy : v.y = 0) (hvx : v.x ≠ 0) :
    calculateVector sqrt cos pi v a d = none
      ↔ horizontalRadicand sqrt cos pi v a d < 0 := by
  simp only [calculateVector, horizontalRadicand, if_pos hvy, sqrtOrNaN]
  rcases lt_or_gt_of_ne hvx with hneg | hpos
  · rw [if_neg (not_lt.mpr hneg.le), if_pos hneg]
    split <;> simp_all
  · rw [if_pos hpos]
    split <;> simp_all

/-- The radicand of the horizontal branch, as a square. -/
theorem horizontal_radicand_eq_sq (vx d D c s : ℝ) (hvx : vx ≠ 0)
    (hD : D * D = vx * vx) (hcs : s * s + c * c = 1) :
    d * d - D * d * c / vx * (D * d * c / vx) = (d * s) ^ 2 := by
  field_simp
  ring_nf
  have e1 : D ^ 2 = vx ^ 2 := by nlinarith
  have e2 : c ^ 2 = 1 - s ^ 2 := by nlinarith
  rw [e1, e2]
  ring

/-- C16, as amended: in exact arithmetic, for a non-zero base vector `v`, an angle `a` in `(0, π)` and a length
`d > 0`, no square root of `calculateVector` is taken of a negative number: the
discriminant `b·b − 4·a·c` of the general branch (`v.y ≠ 0`) is non-negative,
the radicand `d·d − x_1·x_1` of the horizontal branch (`v.y = 0`) is
non-negative, and `calculateVector` has a result. -/
theorem calculateVector_radicands_nonneg (v : Point ℝ) (a d : ℝ)
    (hv : v.x ≠ 0 ∨ v.y ≠ 0) (ha0 : 0 < a) (haπ : a < Real.pi) (hd : 0 < d) :
    (v.y ≠ 0 → 0 ≤ quadraticDiscriminant Real.sqrt Real.cos Real.pi v (some a) (some d)) ∧
    (v.y = 0 → 0 ≤ horizontalRadicand Real.sqrt Real.cos Real.pi v (some a) (some d)) ∧
    calculateVector Real.sqrt Real.cos Real.pi v (some a) (some d) ≠ none := by
  have hcs : Real.sin a * Real.sin a + Real.cos a * Real.cos a = 1 := by
    have := Real.sin_sq_add_cos_sq a
    nlinarith
  have hsum : 0 ≤ v.x * v.x + v.y * v.y := by nlinarith [mul_self_nonneg v.x, mul_self_nonneg v.y]
  have hD := Real.mul_self_sqrt hsum
  have ha : a ≠ 0 := ha0.ne.symm
  have hd0 : d ≠ 0 := hd.ne.symm
  refine ⟨?_, ?_, ?_⟩
  · intro hvy
    simp only [quadraticDiscriminant, orDefault, if_neg ha, if_neg hd0]
    rw [discriminant_eq_sq v.x v.y d _ (Real.cos a) (Real.sin a) hvy hD hcs]
    exact sq_nonneg _
  · intro hvy
    have hvx : v.x ≠ 0 := by
      rcases hv with h | h
      · exact h
      · exact absurd hvy h
    rw [hvy] at hD
    simp only [horizontalRadicand, orDefault, if_neg ha, if_neg hd0, hvy]
    rw [horizontal_radicand_eq_sq v.x d _ (Real.cos a) (Real.sin a) hvx (by linarith) hcs]
    exact sq_nonneg _
  · rw [calculateVector_closed_form v a d hv ha0 haπ hd]
    exact Option.some_ne_none _

theorem calculateVector_radicands_nonneg_witness :
    0 ≤ quadraticDiscriminant Real.sqrt Real.cos Real.pi ⟨3, 4⟩ (some (Real.pi / 3)) (some 2) ∧
    0 ≤ horizontalRadicand Real.sqrt Real.cos Real.pi ⟨-3, 0⟩ (some (Real.pi / 3)) (some 2) :=
  ⟨(calculateVector_radicands_nonneg ⟨3, 4⟩ (Real.pi / 3) 2 (Or.inl (by norm_num))
      (by positivity) (by linarith [Real.pi_pos]) (by norm_num)).1 (by norm_num),
   (calculateVector_radicands_nonneg ⟨-3, 0⟩ (Real.pi / 3) 2 (Or.inl (by norm_num))
      (by positivity) (by linarith [Real.pi_pos]) (by norm_num)).2.1 rfl⟩

/-- The cross products of the base vector with the two vectors of the closed form. -/
theorem rotated_cross (vx vy d D c s : ℝ) (hD0 : D ≠ 0)
    (hD : D * D = vx * vx + vy * vy) :
    vx * (d / D * (vx * s + vy * c)) - vy * (d / D * (vx * c - vy * s)) = d * D * s ∧
    vx * (d / D * (-vx * s + vy * c)) - vy * (d / D * (vx * c + vy * s)) = -(d * D * s) := by
  have hvx2 : vx ^ 2 = D * D - vy * vy := by nlinarith
  constructor
  · field_simp
    ring_nf
    rw [hvx2]
    ring
  · field_simp
    ring_nf
    rw [hvx2]
    ring

/-- C11, as amended: in exact arithmetic, for a non-zero base vector `v`, an angle `a` in `(0, π)` and a length
`d > 0`, the first vector returned by `calculateVector` lies to the left of `v`
(`v.x·w1.y − v.y·w1.x > 0`) and the second to the right
(`v.x·w2.y − v.y·w2.x < 0`), whatever the signs of `v.x` and `v.y`. -/
theorem calculateVector_left_right (v : Point ℝ) (a d : ℝ)
    (hv : v.x ≠ 0 ∨ v.y ≠ 0) (ha0 : 0 < a) (haπ : a < Real.pi) (hd : 0 < d) :
    ∃ w1 w2 : Point ℝ,
      calculateVector Real.sqrt Real.cos Real.pi v (some a) (some d) = some (w1, w2) ∧
      0 < v.x * w1.y - v.y * w1.x ∧
      v.x * w2.y - v.y * w2.x < 0 := by
  have hsum : 0 < v.x * v.x + v.y * v.y := by
    rcases hv with h | h
    · have := mul_self_pos.mpr h
      nlinarith [mul_self_nonneg v.y]
    · have := mul_self_pos.mpr h
      nlinarith [mul_self_nonneg v.x]
  have hDpos : 0 < Real.sqrt (v.x * v.x + v.y * v.y) := Real.sqrt_pos.mpr hsum
  have hD := Real.mul_self_sqrt hsum.le
  have hs : 0 < Real.sin a := Real.sin_pos_of_pos_of_lt_pi ha0 haπ
  obtain ⟨c1, c2⟩ := rotated_cross v.x v.y d _ (Real.cos a) (Real.sin a) hDpos.ne.symm hD
  refine ⟨_, _, calculateVector_closed_form v a d hv ha0 haπ hd, ?_, ?_⟩
  · simp only
    rw [c1]
    positivity
  · simp only
    rw [c2]
    have : 0 < d * Real.sqrt (v.x * v.x + v.y * v.y) * Real.sin a := by positivity
    linarith

theorem calculateVector_left_right_witness :
    ∃ w1 w2 : Point ℝ,
      calculateVector Real.sqrt Real.cos Real.pi ⟨-3, -4⟩ (some (Real.pi / 3)) (some 2)
        = some (w1, w2) ∧
      0 < (Point.mk (-3) (-4) : Point ℝ).x * w1.y - (Point.mk (-3) (-4) : Point ℝ).y * w1.x ∧
      (Point.mk (-3) (-4) : Point ℝ).x * w2.y - (Point.mk (-3) (-4) : Point ℝ).y * w2.x < 0 :=
  calculateVector_left_right ⟨-3, -4⟩ (Real.pi / 3) 2 (Or.inl (by norm_num))
    (by positivity) (by linarith [Real.pi_pos]) (by norm_num)

/-- C19, as amended: in exact arithmetic, for a non-zero base vector `v`, an angle `a` in `(0, π)` and a length
`d > 0`, `calculateVector` returns the closed form `rotatedToLength`: `v` scaled
to the length `d` and turned by `+a` (first) and by `−a` (second), in the
horizontal branch and in the branch of the quadratic formula. -/
theorem calculateVector_eq_rotatedToLength (v : Point ℝ) (a d : ℝ)
    (hv : v.x ≠ 0 ∨ v.y ≠ 0) (ha0 : 0 < a) (haπ : a < Real.pi) (hd : 0 < d) :
    calculateVector Real.sqrt Real.cos Real.pi v (some a) (some d)
      = some (rotatedToLength Real.sqrt Real.cos Real.sin v a d) := by
  rw [calculateVector_closed_form v a d hv ha0 haπ hd]
  rfl

theorem calculateVector_eq_rotatedToLength_witness :
    calculateVector Real.sqrt Real.cos Real.pi ⟨3, 0⟩ (some (Real.pi / 3)) (some 2)
      = some (rotatedToLength Real.sqrt Real.cos Real.sin ⟨3, 0⟩ (Real.pi / 3) 2) :=
  calculateVector_eq_rotatedToLength ⟨3, 0⟩ (Real.pi / 3) 2 (Or.inl (by norm_num))
    (by positivity) (by linarith [Real.pi_pos]) (by norm_num)

/-- The sum of two unit vectors has the same component along both. -/
theorem bisector_components (ax ay bx by_ d1 d2 : ℝ) (h1 : d1 ≠ 0) (h2 : d2 ≠ 0)
    (e1 : d1 * d1 = ax * ax + ay * ay) (e2 : d2 * d2 = bx * bx + by_ * by_) :
    ((ax / d1 + bx / d2) * ax + (ay / d1 + by_ / d2) * ay) / d1
      = ((ax / d1 + bx / d2) * bx + (ay / d1 + by_ / d2) * by_) / d2 := by
  have ea : ax ^ 2 = d1 * d1 - ay * ay := by nlinarith
  have eb : bx ^ 2 = d2 * d2 - by_ * by_ := by nlinarith
  field_simp
  ring_nf
  rw [ea, eb]
  ring

/-- C12, as amended: in exact arithmetic, for two non-zero vectors `v1` and `v2`, `calculateAngularBisector`
returns `b = v1/|v1| + v2/|v2|`, and `b` makes the same angle with both:
`(b·v1)/|v1| = (b·v2)/|v2|`. -/
theorem calculateAngularBisector_bisects (v1 v2 : Point ℝ)
    (h1 : v1.x ≠ 0 ∨ v1.y ≠ 0) (h2 : v2.x ≠ 0 ∨ v2.y ≠ 0) :
    ∃ b : Point ℝ,
      calculateAngularBisector Real.sqrt v1 v2 = some b ∧
      b = ⟨v1.x / Real.sqrt (v1.x * v1.x + v1.y * v1.y)
             + v2.x / Real.sqrt (v2.x * v2.x + v2.y * v2.y),
           v1.y / Real.sqrt (v1.x * v1.x + v1.y * v1.y)
             + v2.y / Real.sqrt (v2.x * v2.x + v2.y * v2.y)⟩ ∧
      (b.x * v1.x + b.y * v1.y) / Real.sqrt (v1.x * v1.x + v1.y * v1.y)
        = (b.x * v2.x + b.y * v2.y) / Real.sqrt (v2.x * v2.x + v2.y * v2.y) := by
  have pos : ∀ v : Point ℝ, (v.x ≠ 0 ∨ v.y ≠ 0) → 0 < v.x * v.x + v.y * v.y := by
    intro v hv
    rcases hv with h | h
    · have := mul_self_pos.mpr h
      nlinarith [mul_self_nonneg v.y]
    · have := mul_self_pos.mpr h
      nlinarith [mul_self_nonneg v.x]
  have hd1 : Real.sqrt (v1.x * v1.x + v1.y * v1.y) ≠ 0 :=
    (Real.sqrt_pos.mpr (pos v1 h1)).ne.symm
  have hd2 : Real.sqrt (v2.x * v2.x + v2.y * v2.y) ≠ 0 :=
    (Real.sqrt_pos.mpr (pos v2 h2)).ne.symm
  refine ⟨_, ?_, rfl, ?_⟩
  · simp only [calculateAngularBisector, hd1, hd2, or_self, if_false]
  · exact bisector_components v1.x v1.y v2.x v2.y _ _ hd1 hd2
      (Real.mul_self_sqrt (pos v1 h1).le) (Real.mul_self_sqrt (pos v2 h2).le)

theorem calculateAngularBisector_bisects_witness :
    ∃ b : Point ℝ,
      calculateAngularBisector Real.sqrt (⟨3, 4⟩ : Point ℝ) (⟨1, 0⟩ : Point ℝ) = some b ∧
      b = ⟨(⟨3, 4⟩ : Point ℝ).x / Real.sqrt ((⟨3, 4⟩ : Point ℝ).x * (⟨3, 4⟩ : Point ℝ).x + (⟨3, 4⟩ : Point ℝ).y * (⟨3, 4⟩ : Point ℝ).y)
             + (⟨1, 0⟩ : Point ℝ).x / Real.sqrt ((⟨1, 0⟩ : Point ℝ).x * (⟨1, 0⟩ : Point ℝ).x + (⟨1, 0⟩ : Point ℝ).y * (⟨1, 0⟩ : Point ℝ).y),
           (⟨3, 4⟩ : Point ℝ).y / Real.sqrt ((⟨3, 4⟩ : Point ℝ).x * (⟨3, 4⟩ : Point ℝ).x + (⟨3, 4⟩ : Point ℝ).y * (⟨3, 4⟩ : Point ℝ).y)
             + (⟨1, 0⟩ : Point ℝ).y / Real.sqrt ((⟨1, 0⟩ : Point ℝ).x * (⟨1, 0⟩ : Point ℝ).x + (⟨1, 0⟩ : Point ℝ).y * (⟨1, 0⟩ : Point ℝ).y)⟩ ∧
      (b.x * (⟨3, 4⟩ : Point ℝ).x + b.y * (⟨3, 4⟩ : Point ℝ).y) / Real.sqrt ((⟨3, 4⟩ : Point ℝ).x * (⟨3, 4⟩ : Point ℝ).x + (⟨3, 4⟩ : Point ℝ).y * (⟨3, 4⟩ : Point ℝ).y)
        = (b.x * (⟨1, 0⟩ : Point ℝ).x + b.y * (⟨1, 0⟩ : Point ℝ).y) / Real.sqrt ((⟨1, 0⟩ : Point ℝ).x * (⟨1, 0⟩ : Point ℝ).x + (⟨1, 0⟩ : Point ℝ).y * (⟨1, 0⟩ : Point ℝ).y) :=
  calculateAngularBisector_bisects ⟨3, 4⟩ ⟨1, 0⟩ (Or.inl (by norm_num)) (Or.inl (by norm_num))

/-! ## The bare array text -/

/-- C18: for a non-empty sequence `pts` of points (coordinates safe integers)
`getControlPointsFromJSON` applied to the bare array text, the form its
docstring names, returns the points of `pts` in order; for the empty sequence
the array text is `[]`, the pattern has no match, and the call raises a
`TypeError` instead of returning the empty sequence. -/
theorem getControlPointsFromJSON_bare_array_text (pts : List (Point Int)) (hne : pts ≠ [])
    (hsafe : ∀ p ∈ pts, isSafeInteger p.x = true ∧ isSafeInteger p.y = true) :
    getControlPointsFromJSON evalCoordinateObject
        (String.toList "[" ++ join (String.toList ",") (pts.map (controlPointToJSON numberToText))
          ++ String.toList "]")
      = Except.ok pts ∧
    String.toList "[" ++ join (String.toList ",") (([] : List (Point Int)).map (controlPointToJSON numberToText))
          ++ String.toList "]" = String.toList "[]" ∧
    getControlPointsFromJSON evalCoordinateObject
        (String.toList "[" ++ join (String.toList ",") (([] : List (Point Int)).map (controlPointToJSON numberToText))
          ++ String.toList "]")
      = Except.error JsError.typeError := by
  refine ⟨?_, rfl, rfl⟩
  have h := getControlPointsFromJSON_array_text pts hne hsafe
  simpa [String.toList] using h

theorem getControlPointsFromJSON_bare_array_text_witness :
    getControlPointsFromJSON evalCoordinateObject
        (String.toList "[" ++ join (String.toList ",")
            (([⟨1, 2⟩, ⟨-30, 405⟩] : List (Point Int)).map (controlPointToJSON numberToText))
          ++ String.toList "]")
      = Except.ok [⟨1, 2⟩, ⟨-30, 405⟩] ∧
    String.toList "[" ++ join (String.toList ",") (([] : List (Point Int)).map (controlPointToJSON numberToText))
          ++ String.toList "]" = String.toList "[]" ∧
    getControlPointsFromJSON evalCoordinateObject
        (String.toList "[" ++ join (String.toList ",") (([] : List (Point Int)).map (controlPointToJSON numberToText))
          ++ String.toList "]")
      = Except.error JsError.typeError :=
  getControlPointsFromJSON_bare_array_text [⟨1, 2⟩, ⟨-30, 405⟩] (List.cons_ne_nil _ _)
    (by decide)

/-! ## The isosceles triangle of the two-corner construction -/

/-- For non-parallel directions, a point on both lines is the point
`calculateIntersection` returns. -/
theorem calculateIntersection_eq_of_common_point {K : Type} [LinearOrderedField K]
    (v_1 v_2 point1 point2 P : Point K) (t u : K)
    (hnp : v_1.y * v_2.x - v_1.x * v_2.y ≠ 0)
    (h1x : P.x = point1.x + t * v_1.x) (h1y : P.y = point1.y + t * v_1.y)
    (h2x : P.x = point2.x + u * v_2.x) (h2y : P.y = point2.y + u * v_2.y) :
    calculateIntersection v_1 v_2 point1 point2 = P := by
  obtain ⟨a, b⟩ := v_1
  obtain ⟨c, e⟩ := v_2
  obtain ⟨p, q⟩ := point1
  obtain ⟨r, w⟩ := point2
  obtain ⟨X, Y⟩ := P
  simp only at hnp h1x h1y h2x h2y
  have hx : (a * c * (w - q) + p * b * c - r * e * a) / (b * c - a * e) = X := by
    rw [div_eq_iff hnp]
    have hp : p = X - t * a := by linarith
    have hq : q = Y - t * b := by linarith
    have hr : r = X - u * c := by linarith
    have hw : w = Y - u * e := by linarith
    rw [hp, hq, hr, hw]
    ring
  simp only [calculateIntersection, if_neg hnp, hx, Point.mk.injEq, true_and]
  by_cases ha : a = 0
  · have hc : c ≠ 0 := by
      rintro rfl
      simp [ha] at hnp
    simp only [ne_eq, ha, not_true_eq_false, if_false, Point.mk.injEq, true_and]
    rw [h2x, h2y]
    field_simp
    ring
  · simp only [ne_eq, ha, not_false_eq_true, if_true, Point.mk.injEq, true_and]
    rw [h1x, h1y]
    field_simp
    ring

/-- The two pairs of directions of the construction are not parallel. -/
theorem apex_directions_not_parallel (vx vy D c s : ℝ) (hD0 : D ≠ 0)
    (hD : D * D = vx * vx + vy * vy) (hc : 0 < c) (hs : 0 < s) :
    1 / D * (vx * s + vy * c) * (1 / D * (vx * -c - vy * s))
        - 1 / D * (vx * c - vy * s) * (1 / D * (vx * s + vy * -c)) ≠ 0 ∧
    1 / D * (-vx * s + vy * c) * (1 / D * (vx * -c + vy * s))
        - 1 / D * (vx * c + vy * s) * (1 / D * (-vx * s + vy * -c)) ≠ 0 := by
  have hvx2 : vx ^ 2 = D * D - vy * vy := by nlinarith
  have hsc : 0 < s * c := mul_pos hs hc
  have e1 : 1 / D * (vx * s + vy * c) * (1 / D * (vx * -c - vy * s))
        - 1 / D * (vx * c - vy * s) * (1 / D * (vx * s + vy * -c)) = -(2 * (s * c)) := by
    field_simp
    ring_nf
    rw [hvx2]
    ring
  have e2 : 1 / D * (-vx * s + vy * c) * (1 / D * (vx * -c + vy * s))
        - 1 / D * (vx * c + vy * s) * (1 / D * (-vx * s + vy * -c)) = 2 * (s * c) := by
    field_simp
    ring_nf
    rw [hvx2]
    ring
  rw [e1, e2]
  constructor <;> linarith

/-- The result of `calculateIntersectionFromTwoCorner`: the two apexes. -/
theorem calculateIntersectionFromTwoCorner_apexes (pointS pointE : Point ℝ) (a_S : ℝ)
    (a_E : Option ℝ) (hne : pointS ≠ pointE) (h0 : 0 < a_S) (h1 : a_S < Real.pi / 2) :
    calculateIntersectionFromTwoCorner Real.sqrt Real.cos Real.pi pointS pointE (some a_S) a_E
      = some
        (⟨pointS.x + (pointE.x - pointS.x) / 2
            - Real.sin a_S / (2 * Real.cos a_S) * (pointE.y - pointS.y),
          pointS.y + (pointE.y - pointS.y) / 2
            + Real.sin a_S / (2 * Real.cos a_S) * (pointE.x - pointS.x)⟩,
         ⟨pointS.x + (pointE.x - pointS.x) / 2
            + Real.sin a_S / (2 * Real.cos a_S) * (pointE.y - pointS.y),
          pointS.y + (pointE.y - pointS.y) / 2
            - Real.sin a_S / (2 * Real.cos a_S) * (pointE.x - pointS.x)⟩) := by
  obtain ⟨Sx, Sy⟩ := pointS
  obtain ⟨Ex, Ey⟩ := pointE
  have hpi := Real.pi_pos
  have hv : (Ex - Sx) ≠ 0 ∨ (Ey - Sy) ≠ 0 := by
    by_contra h
    push_neg at h
    apply hne
    simp only [Point.mk.injEq]
    exact ⟨by linarith [h.1], by linarith [h.2]⟩
  have hsum : 0 < (Ex - Sx) * (Ex - Sx) + (Ey - Sy) * (Ey - Sy) := by
    rcases hv with h | h
    · have := mul_self_pos.mpr h
      nlinarith [mul_self_nonneg (Ey - Sy)]
    · have := mul_self_pos.mpr h
      nlinarith [mul_self_nonneg (Ex - Sx)]
  have hDpos := Real.sqrt_pos.mpr hsum
  have hD := Real.mul_self_sqrt hsum.le
  have hs : 0 < Real.sin a_S := Real.sin_pos_of_pos_of_lt_pi h0 (by linarith)
  have hc : 0 < Real.cos a_S := Real.cos_pos_of_mem_Ioo ⟨by linarith, h1⟩
  have c1 := calculateVector_closed_form ⟨Ex - Sx, Ey - Sy⟩ a_S 1 hv h0 (by linarith)
    (by norm_num)
  have c2 := calculateVector_closed_form ⟨Ex - Sx, Ey - Sy⟩ (Real.pi - a_S) 1 hv
    (by linarith) (by linarith) (by norm_num)
  simp only [Real.cos_pi_sub, Real.sin_pi_sub] at c1 c2
  simp only [calculateIntersectionFromTwoCorner, orDefault, if_neg h0.ne.symm, c1, c2,
    Option.some_bind, Option.map_some']
  generalize Real.sqrt ((Ex - Sx) * (Ex - Sx) + (Ey - Sy) * (Ey - Sy)) = D at hDpos hD ⊢
  generalize Real.cos a_S = c at hc ⊢
  generalize Real.sin a_S = s at hs ⊢
  obtain ⟨np1, np2⟩ := apex_directions_not_parallel (Ex - Sx) (Ey - Sy) D c s
    hDpos.ne.symm hD hc hs
  have hD0 : D ≠ 0 := hDpos.ne.symm
  have hc0 : c ≠ 0 := hc.ne.symm
  have eL : calculateIntersection
      (⟨1 / D * ((Ex - Sx) * c - (Ey - Sy) * s), 1 / D * ((Ex - Sx) * s + (Ey - Sy) * c)⟩ :
        Point ℝ)
      ⟨1 / D * ((Ex - Sx) * -c - (Ey - Sy) * s), 1 / D * ((Ex - Sx) * s + (Ey - Sy) * -c)⟩
      ⟨Sx, Sy⟩ ⟨Ex, Ey⟩
      = ⟨Sx + (Ex - Sx) / 2 - s / (2 * c) * (Ey - Sy),
         Sy + (Ey - Sy) / 2 + s / (2 * c) * (Ex - Sx)⟩ := by
    apply calculateIntersection_eq_of_common_point _ _ _ _ _ (D / (2 * c)) (D / (2 * c)) np1
    · simp only
      field_simp
      ring
    · simp only
      field_simp
      ring
    · simp only
      field_simp
      ring
    · simp only
      field_simp
      ring
  have eR : calculateIntersection
      (⟨1 / D * ((Ex - Sx) * c + (Ey - Sy) * s), 1 / D * (-(Ex - Sx) * s + (Ey - Sy) * c)⟩ :
        Point ℝ)
      ⟨1 / D * ((Ex - Sx) * -c + (Ey - Sy) * s), 1 / D * (-(Ex - Sx) * s + (Ey - Sy) * -c)⟩
      ⟨Sx, Sy⟩ ⟨Ex, Ey⟩
      = ⟨Sx + (Ex - Sx) / 2 + s / (2 * c) * (Ey - Sy),
         Sy + (Ey - Sy) / 2 - s / (2 * c) * (Ex - Sx)⟩ := by
    apply calculateIntersection_eq_of_common_point _ _ _ _ _ (D / (2 * c)) (D / (2 * c)) np2
    · simp only
      field_simp
      ring
    · simp only
      field_simp
      ring
    · simp only
      field_simp
      ring
    · simp only
      field_simp
      ring
  rw [eL, eR]

/-- The squared length of a side from a base point to an apex. -/
theorem apex_side_sq (vx vy D c s e : ℝ) (hc0 : c ≠ 0)
    (hD : D * D = vx * vx + vy * vy) (hcs : s * s + c * c = 1) (he : e * e = 1) :
    (vx / 2 - e * (s / (2 * c)) * vy) ^ 2 + (vy / 2 + e * (s / (2 * c)) * vx) ^ 2
      = (D / (2 * c)) ^ 2 := by
  have hvx2 : vx ^ 2 = D * D - vy * vy := by nlinarith
  have hs2 : s ^ 2 = 1 - c ^ 2 := by nlinarith
  have he2 : e ^ 2 = 1 := by nlinarith
  field_simp
  ring_nf
  rw [hvx2, hs2, he2]
  ring

/-- The angles at the two base points of the triangle with an apex of the
construction, and the equal sides. -/
theorem apex_base_angles (Sx Sy Ex Ey a e : ℝ) (h0 : 0 < a) (h1 : a < Real.pi / 2)
    (he : e * e = 1) :
    angleAt Real.sqrt Real.cos ⟨Sx, Sy⟩ ⟨Ex, Ey⟩
      ⟨Sx + (Ex - Sx) / 2 - e * (Real.sin a / (2 * Real.cos a)) * (Ey - Sy),
       Sy + (Ey - Sy) / 2 + e * (Real.sin a / (2 * Real.cos a)) * (Ex - Sx)⟩ a ∧
    angleAt Real.sqrt Real.cos ⟨Ex, Ey⟩ ⟨Sx, Sy⟩
      ⟨Sx + (Ex - Sx) / 2 - e * (Real.sin a / (2 * Real.cos a)) * (Ey - Sy),
       Sy + (Ey - Sy) / 2 + e * (Real.sin a / (2 * Real.cos a)) * (Ex - Sx)⟩ a := by
  have hc : 0 < Real.cos a := Real.cos_pos_of_mem_Ioo ⟨by linarith [Real.pi_pos], h1⟩
  have hcs : Real.sin a * Real.sin a + Real.cos a * Real.cos a = 1 := by
    have := Real.sin_sq_add_cos_sq a
    nlinarith
  have hsum : 0 ≤ (Ex - Sx) * (Ex - Sx) + (Ey - Sy) * (Ey - Sy) := by
    nlinarith [mul_self_nonneg (Ex - Sx), mul_self_nonneg (Ey - Sy)]
  have hDnn := Real.sqrt_nonneg ((Ex - Sx) * (Ex - Sx) + (Ey - Sy) * (Ey - Sy))
  have hD := Real.mul_self_sqrt hsum
  have hside := apex_side_sq (Ex - Sx) (Ey - Sy) _ (Real.cos a) (Real.sin a) e
    hc.ne.symm hD hcs he
  have hSE : Real.sqrt ((Sx - Ex) ^ 2 + (Sy - Ey) ^ 2)
      = Real.sqrt ((Ex - Sx) * (Ex - Sx) + (Ey - Sy) * (Ey - Sy)) := by
    congr 1
    ring
  have hES : Real.sqrt ((Ex - Sx) ^ 2 + (Ey - Sy) ^ 2)
      = Real.sqrt ((Ex - Sx) * (Ex - Sx) + (Ey - Sy) * (Ey - Sy)) := by
    congr 1
    ring
  simp only [angleAt, calculateDistance]
  generalize Real.sqrt ((Ex - Sx) * (Ex - Sx) + (Ey - Sy) * (Ey - Sy)) = D
    at hDnn hD hside hSE hES
  generalize Real.cos a = c at hc hcs hside ⊢
  generalize Real.sin a = s at hcs hside ⊢
  have hlen : 0 ≤ D / (2 * c) := div_nonneg hDnn (by linarith)
  have hSI : Real.sqrt ((Sx - (Sx + (Ex - Sx) / 2 - e * (s / (2 * c)) * (Ey - Sy))) ^ 2
      + (Sy - (Sy + (Ey - Sy) / 2 + e * (s / (2 * c)) * (Ex - Sx))) ^ 2) = D / (2 * c) := by
    rw [show (Sx - (Sx + (Ex - Sx) / 2 - e * (s / (2 * c)) * (Ey - Sy))) ^ 2
      + (Sy - (Sy + (Ey - Sy) / 2 + e * (s / (2 * c)) * (Ex - Sx))) ^ 2 = (D / (2 * c)) ^ 2 by
        linear_combination hside]
    exact Real.sqrt_sq hlen
  have hEI : Real.sqrt ((Ex - (Sx + (Ex - Sx) / 2 - e * (s / (2 * c)) * (Ey - Sy))) ^ 2
      + (Ey - (Sy + (Ey - Sy) / 2 + e * (s / (2 * c)) * (Ex - Sx))) ^ 2) = D / (2 * c) := by
    rw [show (Ex - (Sx + (Ex - Sx) / 2 - e * (s / (2 * c)) * (Ey - Sy))) ^ 2
      + (Ey - (Sy + (Ey - Sy) / 2 + e * (s / (2 * c)) * (Ex - Sx))) ^ 2 = (D / (2 * c)) ^ 2 by
        linear_combination hside]
    exact Real.sqrt_sq hlen
  have hprod : D * (D / (2 * c)) * c = D * D / 2 := by
    field_simp
    ring
  constructor
  · rw [hSE, hSI, hprod, hD]
    ring
  · rw [hES, hEI, hprod, hD]
    ring

/-- C20, as amended: in exact arithmetic, for two distinct points `pointS` and `pointE`, every `a_S` in
`(0, π/2)` and every `a_E`, given or omitted, both points returned by
`calculateIntersectionFromTwoCorner` are at the same distance from `pointS` and
from `pointE`, both base angles of the triangle of each are `a_S`, and the two
points are mirror images across the line through `pointS` and `pointE`: their
midpoint lies on the line and their difference is orthogonal to it. -/
theorem calculateIntersectionFromTwoCorner_isosceles (pointS pointE : Point ℝ) (a_S : ℝ)
    (a_E : Option ℝ) (hne : pointS ≠ pointE) (h0 : 0 < a_S) (h1 : a_S < Real.pi / 2) :
    ∃ I_l I_r : Point ℝ,
      calculateIntersectionFromTwoCorner Real.sqrt Real.cos Real.pi pointS pointE
        (some a_S) a_E = some (I_l, I_r) ∧
      calculateDistance Real.sqrt I_l pointS = calculateDistance Real.sqrt I_l pointE ∧
      calculateDistance Real.sqrt I_r pointS = calculateDistance Real.sqrt I_r pointE ∧
      angleAt Real.sqrt Real.cos pointS pointE I_l a_S ∧
      angleAt Real.sqrt Real.cos pointE pointS I_l a_S ∧
      angleAt Real.sqrt Real.cos pointS pointE I_r a_S ∧
      angleAt Real.sqrt Real.cos pointE pointS I_r a_S ∧
      (∃ t : ℝ, calculateMidpoint I_l I_r
        = ⟨pointS.x + t * (pointE.x - pointS.x), pointS.y + t * (pointE.y - pointS.y)⟩) ∧
      (I_l.x - I_r.x) * (pointE.x - pointS.x) + (I_l.y - I_r.y) * (pointE.y - pointS.y) = 0 := by
  have hap := calculateIntersectionFromTwoCorner_apexes pointS pointE a_S a_E hne h0 h1
  obtain ⟨Sx, Sy⟩ := pointS
  obtain ⟨Ex, Ey⟩ := pointE
  simp only at hap
  obtain ⟨al1, al2⟩ := apex_base_angles Sx Sy Ex Ey a_S 1 h0 h1 (by norm_num)
  obtain ⟨ar1, ar2⟩ := apex_base_angles Sx Sy Ex Ey a_S (-1) h0 h1 (by norm_num)
  simp only [one_mul] at al1 al2
  simp only [neg_mul, one_mul, sub_neg_eq_add, ← sub_eq_add_neg] at ar1 ar2
  refine ⟨_, _, hap, ?_, ?_, al1, al2, ar1, ar2, ⟨1 / 2, ?_⟩, ?_⟩
  · simp only [calculateDistance]
    congr 1
    ring
  · simp only [calculateDistance]
    congr 1
    ring
  · simp only [calculateMidpoint, Point.mk.injEq]
    constructor <;> ring
  · simp only
    ring

theorem calculateIntersectionFromTwoCorner_isosceles_witness :
    ∃ I_l I_r : Point ℝ,
      calculateIntersectionFromTwoCorner Real.sqrt Real.cos Real.pi (⟨0, 0⟩ : Point ℝ) (⟨2, 0⟩ : Point ℝ)
        (some (Real.pi / 3)) (some (Real.pi / 6)) = some (I_l, I_r) ∧
      calculateDistance Real.sqrt I_l (⟨0, 0⟩ : Point ℝ) = calculateDistance Real.sqrt I_l (⟨2, 0⟩ : Point ℝ) ∧
      calculateDistance Real.sqrt I_r (⟨0, 0⟩ : Point ℝ) = calculateDistance Real.sqrt I_r (⟨2, 0⟩ : Point ℝ) ∧
      angleAt Real.sqrt Real.cos (⟨0, 0⟩ : Point ℝ) (⟨2, 0⟩ : Point ℝ) I_l (Real.pi / 3) ∧
      angleAt Real.sqrt Real.cos (⟨2, 0⟩ : Point ℝ) (⟨0, 0⟩ : Point ℝ) I_l (Real.pi / 3) ∧
      angleAt Real.sqrt Real.cos (⟨0, 0⟩ : Point ℝ) (⟨2, 0⟩ : Point ℝ) I_r (Real.pi / 3) ∧
      angleAt Real.sqrt Real.cos (⟨2, 0⟩ : Point ℝ) (⟨0, 0⟩ : Point ℝ) I_r (Real.pi / 3) ∧
      (∃ t : ℝ, calculateMidpoint I_l I_r
        = ⟨(⟨0, 0⟩ : Point ℝ).x + t * ((⟨2, 0⟩ : Point ℝ).x - (⟨0, 0⟩ : Point ℝ).x), (⟨0, 0⟩ : Point ℝ).y + t * ((⟨2, 0⟩ : Point ℝ).y - (⟨0, 0⟩ : Point ℝ).y)⟩) ∧
      (I_l.x - I_r.x) * ((⟨2, 0⟩ : Point ℝ).x - (⟨0, 0⟩ : Point ℝ).x) + (I_l.y - I_r.y) * ((⟨2, 0⟩ : Point ℝ).y - (⟨0, 0⟩ : Point ℝ).y) = 0 :=
  calculateIntersectionFromTwoCorner_isosceles ⟨0, 0⟩ ⟨2, 0⟩ (Real.pi / 3)
    (some (Real.pi / 6)) (fun h => by simpa using congrArg Point.x h) (by positivity)
    (by linarith [Real.pi_pos])

/-! ## Where double precision departs from exact arithmetic

The properties of the rotation, of the arrow barbs, of the line intersection,
of the bisector and of the two-corner construction proved above hold in exact
arithmetic.  With the numbers of the language each of them fails at inputs
that satisfy its hypotheses; the theorems of this section evaluate the methods
there. -/

/-- Two doubles that are the same value are equal. -/
theorem F64.eq_of_same (a b : F64) (h : F64.same a b = true) : a = b := by
  cases a <;> cases b <;> simp_all [F64.same]

/-- Two points with the same coordinates are equal. -/
theorem Binary64.eq_of_samePoint (p q : Point F64) (h : Binary64.samePoint p q = true) :
    p = q := by
  obtain ⟨px, py⟩ := p
  obtain ⟨qx, qy⟩ := q
  simp only [Binary64.samePoint, Bool.and_eq_true] at h
  rw [F64.eq_of_same px qx h.1, F64.eq_of_same py qy h.2]

/-- A result that is the pair of two points is the pair. -/
theorem Binary64.eq_of_samePair (r : Option (Point F64 × Point F64)) (p q : Point F64)
    (h : Binary64.samePair r p q = true) : r = some (p, q) := by
  cases r with
  | none => simp [Binary64.samePair] at h
  | some w =>
    obtain ⟨w1, w2⟩ := w
    simp only [Binary64.samePair, Bool.and_eq_true] at h
    rw [Binary64.eq_of_samePoint w1 p h.1, Binary64.eq_of_samePoint w2 q h.2]

/-- A result that is the list of two segments is the list. -/
theorem Binary64.eq_of_sameSegments (r : Option (List (LineString F64))) (e p q : Point F64)
    (h : Binary64.sameSegments r e p q = true) : r = some [[e, p], [e, q]] := by
  unfold Binary64.sameSegments at h
  split at h
  · simp only [Bool.and_eq_true] at h
    obtain ⟨⟨⟨h1, h2⟩, h3⟩, h4⟩ := h
    rw [Binary64.eq_of_samePoint _ _ h1, Binary64.eq_of_samePoint _ _ h2,
      Binary64.eq_of_samePoint _ _ h3, Binary64.eq_of_samePoint _ _ h4]
  · exact absurd h (by decide)

/-- The model gives the double-precision values of the language: the bits of
`0.1`, of `Math.PI` and of the largest and the smallest positive number, the
rounding of sums, quotients, square roots, cosines and sines, ties to even,
overflow, underflow, and the results that are not numbers. -/
theorem F64.known_values :
    (0.1 : F64) = F64.fin false 7205759403792794 (-56) ∧
    F64.PI = F64.fin false 7074237752028440 (-51) ∧
    (1.7976931348623157e308 : F64) = F64.fin false 9007199254740991 971 ∧
    (5e-324 : F64) = F64.fin false 1 (-1074) ∧
    (0.1 + 0.2 : F64) = 0.30000000000000004 ∧
    (1 / 3 : F64) = 0.3333333333333333 ∧
    F64.sqrt 2 = 1.4142135623730951 ∧
    F64.cos (F64.PI / 6) = 0.8660254037844387 ∧
    F64.cos (F64.PI / 2) = 6.123233995736766e-17 ∧
    F64.cos F64.PI = -1 ∧
    F64.sin (F64.PI / 6) = 0.49999999999999994 ∧
    (9007199254740993 : F64) = 9007199254740992 ∧
    (9007199254740995 : F64) = 9007199254740996 ∧
    (1.7976931348623157e308 * 2 : F64) = F64.inf false ∧
    (5e-324 / 2 : F64) = 0 ∧
    (1 / 0 : F64) = F64.inf false ∧ (-1 / 0 : F64) = F64.inf true ∧
    (0 / 0 : F64) = F64.nan ∧ F64.sqrt (-1) = F64.nan :=
  ⟨F64.eq_of_same _ _ (by decide!), F64.eq_of_same _ _ (by decide!),
    F64.eq_of_same _ _ (by decide!), F64.eq_of_same _ _ (by decide!),
    F64.eq_of_same _ _ (by decide!), F64.eq_of_same _ _ (by decide!),
    F64.eq_of_same _ _ (by decide!), F64.eq_of_same _ _ (by decide!),
    F64.eq_of_same _ _ (by decide!), F64.eq_of_same _ _ (by decide!),
    F64.eq_of_same _ _ (by decide!), F64.eq_of_same _ _ (by decide!),
    F64.eq_of_same _ _ (by decide!), F64.eq_of_same _ _ (by decide!),
    F64.eq_of_same _ _ (by decide!), F64.eq_of_same _ _ (by decide!),
    F64.eq_of_same _ _ (by decide!), F64.eq_of_same _ _ (by decide!),
    F64.eq_of_same _ _ (by decide!)⟩

/-- C2, as stated, fails: for the non-zero horizontal vector `v = (3, 0)`, the
angle `a = 1e-9` in `(0, π)` and the length `d = 0.1`, the code computes
`x_1 = 0.10000000000000002`, the radicand `d * d - x_1 * x_1` is negative and
both returned vectors have the ordinate `NaN`: the sum of the squares of their
components is `NaN`, not `d * d`. -/
theorem calculateVector_binary64_magnitude :
    F64.eq 3 0 = false ∧ F64.lt 0 1e-9 = true ∧ F64.lt 1e-9 F64.PI = true ∧
    F64.lt 0 0.1 = true ∧
    Binary64.calculateVector ⟨3, 0⟩ (some 1e-9) (some 0.1)
      = some (⟨0.10000000000000002, F64.nan⟩, ⟨0.10000000000000002, F64.nan⟩) ∧
    (0.10000000000000002 * 0.10000000000000002 + F64.nan * F64.nan : F64) = F64.nan ∧
    F64.eq (0.10000000000000002 * 0.10000000000000002 + F64.nan * F64.nan) (0.1 * 0.1)
      = false :=
  ⟨by decide!, by decide!, by decide!, by decide!,
    Binary64.eq_of_samePair _ _ _ (by decide!), F64.eq_of_same _ _ (by decide!), by decide!⟩

/-- C3, as stated, fails: the directions `v_1 = (1 + 2⁻³⁰, 1)` and
`v_2 = (1, 1 - 2⁻³⁰)` are not parallel, their exact cross product is `2⁻⁶⁰`,
but the two rounded products of the test are both `1`, so the code takes the
parallel branch and returns the midpoint `(2, 3)` of `(0, 0)` and `(4, 6)`,
which lies on neither line. -/
theorem calculateIntersection_binary64_on_neither_line :
    F64.toRat 1 * F64.toRat 1
      - F64.toRat 1.000000000931322574615478515625
        * F64.toRat 0.999999999068677425384521484375 ≠ 0 ∧
    Binary64.calculateIntersection ⟨1.000000000931322574615478515625, 1⟩
      ⟨1, 0.999999999068677425384521484375⟩ ⟨0, 0⟩ ⟨4, 6⟩ = ⟨2, 3⟩ ∧
    (¬ ∃ t : ℚ, F64.toRat 2 = F64.toRat 0 + t * F64.toRat 1.000000000931322574615478515625 ∧
      F64.toRat 3 = F64.toRat 0 + t * F64.toRat 1) ∧
    (¬ ∃ s : ℚ, F64.toRat 2 = F64.toRat 4 + s * F64.toRat 1 ∧
      F64.toRat 3 = F64.toRat 6 + s * F64.toRat 0.999999999068677425384521484375) := by
  have h0 : F64.toRat 0 = 0 := by decide!
  have h1 : F64.toRat 1 = 1 := by decide!
  have h2 : F64.toRat 2 = 2 := by decide!
  have h3 : F64.toRat 3 = 3 := by decide!
  have h4 : F64.toRat 4 = 4 := by decide!
  have h6 : F64.toRat 6 = 6 := by decide!
  have hp : F64.toRat 1.000000000931322574615478515625 = 1073741825 / 1073741824 := by
    decide!
  have hm : F64.toRat 0.999999999068677425384521484375 = 1073741823 / 1073741824 := by
    decide!
  rw [h0, h1, h2, h3, h4, h6, hp, hm]
  refine ⟨by norm_num, Binary64.eq_of_samePoint _ _ (by decide!), ?_, ?_⟩
  · rintro ⟨t, ht1, ht2⟩
    have ht : t = 3 := by linarith
    rw [ht] at ht1
    norm_num at ht1
  · rintro ⟨s, hs1, hs2⟩
    have hs : s = -2 := by linarith
    rw [hs] at hs2
    norm_num at hs2

/-- C4, as stated, fails: for the distinct points `start = (0, 0)` and
`end = (100, 1e-6)` and the default ratio and angle, the first barb the code
returns ends at `(91.3397460695298, -10.737417293952943)`; its length is
`13.794642067104892`, where `calculateDistance(start, end) / 10` is
`10.000000000000002`. -/
theorem calculateArrowLines_binary64_barb_length :
    Binary64.calculateArrowLines ⟨0, 0⟩ ⟨100, 1e-6⟩ none none
      = some [[⟨100, 1e-6⟩, ⟨91.3397460695298, -10.737417293952943⟩],
          [⟨100, 1e-6⟩, ⟨91.33974585478143, 10.737419293952941⟩]] ∧
    Binary64.calculateDistance ⟨100, 1e-6⟩ ⟨91.3397460695298, -10.737417293952943⟩
      = 13.794642067104892 ∧
    Binary64.calculateDistance ⟨0, 0⟩ ⟨100, 1e-6⟩ / 10 = 10.000000000000002 ∧
    F64.lt 10.000000000000002 13.794642067104892 = true :=
  ⟨Binary64.eq_of_sameSegments _ _ _ _ (by decide!), F64.eq_of_same _ _ (by decide!),
    F64.eq_of_same _ _ (by decide!), by decide!⟩

/-- C8, as stated, fails: the directions `v_1 = (100000001, 100000000)` and
`v_2 = (-100000000, -99999999)` are not parallel, their exact cross product is
`-1`, but the two rounded products of the test are equal, so the code takes the
parallel branch and returns its second point: `(4, 6)` in one order of the
lines and `(0, 0)` in the other. -/
theorem calculateIntersection_binary64_swap :
    F64.toRat 100000000 * F64.toRat (-100000000)
      - F64.toRat 100000001 * F64.toRat (-99999999) = -1 ∧
    Binary64.calculateIntersection ⟨100000001, 100000000⟩ ⟨-100000000, -99999999⟩
      ⟨0, 0⟩ ⟨4, 6⟩ = ⟨4, 6⟩ ∧
    Binary64.calculateIntersection ⟨-100000000, -99999999⟩ ⟨100000001, 100000000⟩
      ⟨4, 6⟩ ⟨0, 0⟩ = ⟨0, 0⟩ ∧
    (⟨4, 6⟩ : Point F64) ≠ ⟨0, 0⟩ :=
  ⟨by decide!, Binary64.eq_of_samePoint _ _ (by decide!),
    Binary64.eq_of_samePoint _ _ (by decide!), by decide!⟩

/-- C11, as stated, fails: for the non-zero vector
`v = (1, 5.551115123125783e-17)` (the value of `0.1 + 0.2 - 0.3`), the angle
`π / 6` and the length `1`, the discriminant of the general branch rounds to
zero and the code returns the same vector `(0.8660254037844387, 0)` twice; its
cross product with `v` is negative, so the first vector is not on the left of
`v`. -/
theorem calculateVector_binary64_left_right :
    (0.1 + 0.2 - 0.3 : F64) = 5.551115123125783e-17 ∧
    F64.lt 0 (F64.PI / 6) = true ∧ F64.lt (F64.PI / 6) F64.PI = true ∧
    Binary64.calculateVector ⟨1, 5.551115123125783e-17⟩ (some (F64.PI / 6)) (some 1)
      = some (⟨0.8660254037844387, 0⟩, ⟨0.8660254037844387, 0⟩) ∧
    (1 * 0 - 5.551115123125783e-17 * 0.8660254037844387 : F64) = -4.80740671595891e-17 ∧
    F64.lt 0 (1 * 0 - 5.551115123125783e-17 * 0.8660254037844387) = false :=
  ⟨F64.eq_of_same _ _ (by decide!), by decide!, by decide!,
    Binary64.eq_of_samePair _ _ _ (by decide!), F64.eq_of_same _ _ (by decide!), by decide!⟩

/-- C12, as stated, fails: for the non-zero vectors `v1 = (1e-200, 0)` and
`v2 = (0, 1)` the square `v1.x * v1.x` underflows to zero, the norm `d1` is zero
and the code returns `(Infinity, NaN)`, where the sum of the two unit vectors is
`(1, 1)`. -/
theorem calculateAngularBisector_binary64_underflow :
    F64.eq 1e-200 0 = false ∧
    (1e-200 * 1e-200 : F64) = 0 ∧
    Binary64.calculateAngularBisector ⟨1e-200, 0⟩ ⟨0, 1⟩ = ⟨F64.inf false, F64.nan⟩ :=
  ⟨by decide!, F64.eq_of_same _ _ (by decide!), Binary64.eq_of_samePoint _ _ (by decide!)⟩

/-- C13, as stated, fails: for the non-zero direction `v_1 = (1e-200, 0)` and
`v_2 = 1 * v_1`, the same direction, both products of the same-direction test
are zero (the first underflows), so the code returns `point2 = (4, 6)`, where
the midpoint of `(0, 0)` and `(4, 6)` is `(2, 3)`. -/
theorem calculateIntersection_binary64_parallel :
    F64.eq 1e-200 0 = false ∧
    (1 * 1e-200 : F64) = 1e-200 ∧ (1 * 0 : F64) = 0 ∧
    Binary64.calculateIntersection ⟨1e-200, 0⟩ ⟨1e-200, 0⟩ ⟨0, 0⟩ ⟨4, 6⟩ = ⟨4, 6⟩ ∧
    (⟨(0 + 4) / 2, (0 + 6) / 2⟩ : Point F64) = ⟨2, 3⟩ :=
  ⟨by decide!, F64.eq_of_same _ _ (by decide!), F64.eq_of_same _ _ (by decide!),
    Binary64.eq_of_samePoint _ _ (by decide!), Binary64.eq_of_samePoint _ _ (by decide!)⟩

/-- C16, as stated, fails: for `v = (3, 0)`, `a = 1e-9`, `d = 0.1` the radicand
of the horizontal branch is `-1.734723475976807e-18`, and for `v = (5.7, 0.2)`,
`a = 1e-7`, `d = 8` the discriminant of the general branch is
`-2.9802322387695312e-08`; both are negative, `Math.sqrt` is taken of them and
the returned vectors hold `NaN`. -/
theorem calculateVector_binary64_negative_radicands :
    Binary64.horizontalRadicand ⟨3, 0⟩ (some 1e-9) (some 0.1) = -1.734723475976807e-18 ∧
    F64.lt (Binary64.horizontalRadicand ⟨3, 0⟩ (some 1e-9) (some 0.1)) 0 = true ∧
    Binary64.quadraticDiscriminant ⟨5.7, 0.2⟩ (some 1e-7) (some 8)
      = -2.9802322387695312e-08 ∧
    F64.lt (Binary64.quadraticDiscriminant ⟨5.7, 0.2⟩ (some 1e-7) (some 8)) 0 = true ∧
    F64.lt 0 1e-7 = true ∧ F64.lt 1e-7 F64.PI = true ∧ F64.lt 0 8 = true ∧
    Binary64.calculateVector ⟨5.7, 0.2⟩ (some 1e-7) (some 8)
      = some (⟨F64.nan, F64.nan⟩, ⟨F64.nan, F64.nan⟩) :=
  ⟨F64.eq_of_same _ _ (by decide!), by decide!, F64.eq_of_same _ _ (by decide!), by decide!,
    by decide!, by decide!, by decide!, Binary64.eq_of_samePair _ _ _ (by decide!)⟩

/-- C19, as stated, fails: for `v = (100, 1e-6)`, `a = π / 6`, `d = 1` the code
returns `(0.8660253942938122, 0.9490626603364944)` and
`(0.8660254132750654, -0.9490626603364944)`, where the closed form, evaluated
with the same numbers, is `(0.8660253987844386, 0.5000000086602538)` and
`(0.8660254087844386, -0.4999999913397458)`: the ordinates are above `0.9`
where those of the closed form are below `0.6`. -/
theorem calculateVector_binary64_closed_form :
    Binary64.calculateVector ⟨100, 1e-6⟩ (some (F64.PI / 6)) (some 1)
      = some (⟨0.8660253942938122, 0.9490626603364944⟩,
          ⟨0.8660254132750654, -0.9490626603364944⟩) ∧
    Binary64.rotatedToLength ⟨100, 1e-6⟩ (F64.PI / 6) 1
      = (⟨0.8660253987844386, 0.5000000086602538⟩,
          ⟨0.8660254087844386, -0.4999999913397458⟩) ∧
    F64.lt 0.9 0.9490626603364944 = true ∧ F64.lt 0.5000000086602538 0.6 = true :=
  ⟨Binary64.eq_of_samePair _ _ _ (by decide!),
    Option.some.inj (Binary64.eq_of_samePair (some _) _ _ (by decide!)), by decide!, by decide!⟩

/-- C20, as stated, fails: for the distinct points `pointS = (0, 0)` and
`pointE = (100, 1e-6)` and `a_S = π / 4` the code returns the points
`(100.00000074505806, 0)` and `(99.99999925494194, 0)`.  The first is at the
distance `100.00000074505806` from `pointS` and `1.247041102896203e-06` from
`pointE`, and the two points, both on the axis of abscissas, are not mirror
images of each other across the line through `pointS` and `pointE`. -/
theorem calculateIntersectionFromTwoCorner_binary64_apexes :
    F64.lt 0 (F64.PI / 4) = true ∧ F64.lt (F64.PI / 4) (F64.PI / 2) = true ∧
    Binary64.calculateIntersectionFromTwoCorner ⟨0, 0⟩ ⟨100, 1e-6⟩ (some (F64.PI / 4)) none
      = some (⟨100.00000074505806, 0⟩, ⟨99.99999925494194, 0⟩) ∧
    Binary64.calculateDistance ⟨100.00000074505806, 0⟩ ⟨0, 0⟩ = 100.00000074505806 ∧
    Binary64.calculateDistance ⟨100.00000074505806, 0⟩ ⟨100, 1e-6⟩
      = 1.247041102896203e-06 :=
  ⟨by decide!, by decide!, Binary64.eq_of_samePair _ _ _ (by decide!),
    F64.eq_of_same _ _ (by decide!), F64.eq_of_same _ _ (by decide!)⟩

end PlottingSymbols
